import Mathlib

set_option maxRecDepth 2000

/-!
Verification development for the Fixed-Income-Portfolio-Optimizer
recommendation engine (`generateRecommendations` in `src/app/page.tsx` and
the shared numeric utilities in `src/lib/utils.ts`).

Modelling conventions:
* JavaScript numbers are modelled as `ℚ`.  Decimal literals of the source
  (`0.2`, `1.5`, `2.8`, ...) are modelled by the exact rationals they denote.
* JavaScript `Date` values are modelled by `JSDate` (calendar fields plus a
  time-of-day in milliseconds); comparisons between dates go through the
  epoch-millisecond view `JSDate.ms`, mirroring `Date` comparison semantics.
  The runtime timezone is modelled as UTC, so date-only strings
  (`new Date("2026-03-01")`, parsed to UTC midnight) and the local calendar
  used by `format`/`getFullYear` coincide.
* Primitives whose exact semantics live outside the rational model
  (`Math.pow` on floats, `Intl.NumberFormat` currency rendering,
  `Number.prototype.toFixed`, number-to-string rendering) are collected in a
  parameter bundle `JSPrims`; the engine is parameterised by it and all
  theorems quantify over the bundle.
* `generateRecommendations` computes `today = new Date()` internally; the
  model takes `today` as an explicit parameter.
-/

/-- `user.risk_tolerance : 'conservative' | 'moderate' | 'aggressive'`. -/
inductive RiskTolerance where
  | conservative
  | moderate
  | aggressive
deriving DecidableEq

/-- The 18 asset-type literals of `AssetType` in `src/types`. -/
inductive AssetType where
  | governmentBond
  | corporateBond
  | municipalBond
  | CD
  | treasuryBill
  | treasuryNote
  | treasuryBond
  | moneyMarket
  | gilts
  | bunds
  | OATs
  | BTPs
  | structuredNote
  | inflationLinkedBond
  | subordinatedBond
  | perpetualBond
  | savingsBond
  | other
deriving DecidableEq

/-- The string literal of an asset type, as it appears in the TS source. -/
def AssetType.str : AssetType → String
  | .governmentBond => "governmentBond"
  | .corporateBond => "corporateBond"
  | .municipalBond => "municipalBond"
  | .CD => "CD"
  | .treasuryBill => "treasuryBill"
  | .treasuryNote => "treasuryNote"
  | .treasuryBond => "treasuryBond"
  | .moneyMarket => "moneyMarket"
  | .gilts => "gilts"
  | .bunds => "bunds"
  | .OATs => "OATs"
  | .BTPs => "BTPs"
  | .structuredNote => "structuredNote"
  | .inflationLinkedBond => "inflationLinkedBond"
  | .subordinatedBond => "subordinatedBond"
  | .perpetualBond => "perpetualBond"
  | .savingsBond => "savingsBond"
  | .other => "other"

/-- `asset.type.includes('Bond')` (case-sensitive substring test on the
type literal; exactly these eight literals contain `"Bond"`). -/
def AssetType.includesBond : AssetType → Bool
  | .governmentBond | .corporateBond | .municipalBond | .treasuryBond
  | .inflationLinkedBond | .subordinatedBond | .perpetualBond
  | .savingsBond => true
  | _ => false

/-- `asset.type.includes('treasury')` (these three literals contain
`"treasury"`). -/
def AssetType.includesTreasury : AssetType → Bool
  | .treasuryBill | .treasuryNote | .treasuryBond => true
  | _ => false

/-- `IssuerType` of `src/types`. -/
inductive IssuerType where
  | government
  | corporate
  | municipal
  | financial
  | other
deriving DecidableEq

/-- A JavaScript `Date`: calendar fields (`month` is 1..12) plus the
time-of-day in milliseconds.  Asset/event dates parsed from `"yyyy-mm-dd"`
strings have `tod = 0` (UTC midnight); `new Date()` carries the current
time of day. -/
structure JSDate where
  year : ℕ
  month : ℕ
  day : ℕ
  tod : ℚ
deriving DecidableEq

/-- Gregorian leap-year test. -/
def isLeapYear (y : ℕ) : Bool :=
  y % 4 = 0 && (y % 100 ≠ 0 || y % 400 = 0)

/-- Days in a calendar month. -/
def daysInMonth (y m : ℕ) : ℕ :=
  if m = 2 then (if isLeapYear y then 29 else 28)
  else if m = 4 ∨ m = 6 ∨ m = 9 ∨ m = 11 then 30
  else 31

/-- Days in months `1..m-1` of year `y`. -/
def daysBeforeMonth (y m : ℕ) : ℕ :=
  (List.range (m - 1)).foldl (fun s i => s + daysInMonth y (i + 1)) 0

/-- Leap years in `[1, y)`. -/
def leapsBelow (y : ℕ) : ℕ :=
  (y - 1) / 4 - (y - 1) / 100 + (y - 1) / 400

/-- Days since the Unix epoch 1970-01-01 of a calendar date (valid for
years ≥ 1970, the only range the claims quantify over). -/
def JSDate.epochDays (d : JSDate) : ℕ :=
  365 * (d.year - 1970) + (leapsBelow d.year - leapsBelow 1970)
    + daysBeforeMonth d.year d.month + (d.day - 1)

/-- `Date.prototype.getTime()`: epoch milliseconds. -/
def JSDate.ms (d : JSDate) : ℚ :=
  86400000 * (d.epochDays : ℚ) + d.tod

/-- Absolute month number, `year * 12 + (month - 1)`; the model of the
`"yyyy-MM"` bucket keys (which sort chronologically for four-digit years). -/
def JSDate.monthIndex (d : JSDate) : ℕ :=
  d.year * 12 + (d.month - 1)

/-- date-fns `addMonths`: month arithmetic, clamping the day-of-month to the
target month's length, preserving the time of day. -/
def addMonths (d : JSDate) (n : ℕ) : JSDate :=
  let mi := d.monthIndex + n
  let y := mi / 12
  let m := mi % 12 + 1
  ⟨y, m, min d.day (daysInMonth y m), d.tod⟩

/-- date-fns `differenceInMonths a b` for `a ≥ b`: full calendar months
between the dates (calendar-month difference, minus one when the final
month is not complete).  End-of-month corner cases of date-fns can differ
by one from this rule, but in the engine the result only feeds the
`monthDiff >= 24` skip, which is subsumed by the bucket-key membership
check (the result never exceeds the calendar-month difference). -/
def differenceInMonths (a b : JSDate) : ℤ :=
  (a.monthIndex : ℤ) - (b.monthIndex : ℤ)
    - (if a.day < b.day ∨ (a.day = b.day ∧ a.tod < b.tod) then 1 else 0)

/-- date-fns `format(date, "MMM")`: English month abbreviation. -/
def monthAbbrev : ℕ → String
  | 1 => "Jan"
  | 2 => "Feb"
  | 3 => "Mar"
  | 4 => "Apr"
  | 5 => "May"
  | 6 => "Jun"
  | 7 => "Jul"
  | 8 => "Aug"
  | 9 => "Sep"
  | 10 => "Oct"
  | 11 => "Nov"
  | 12 => "Dec"
  | _ => ""

/-- `format(date, "MMM yyyy")` of the first day of absolute month `mi`. -/
def fmtMonthYear (mi : ℕ) : String :=
  monthAbbrev (mi % 12 + 1) ++ " " ++ toString (mi / 12)

/-- `Math.round`: nearest integer, halves toward positive infinity. -/
def jsRound (q : ℚ) : ℤ :=
  ⌊q + 1/2⌋

/-- `User` (fields the engine reads; `portfolio_value` kept for shape). -/
structure User where
  id : String
  name : String
  email : String
  risk_tolerance : RiskTolerance
  portfolio_value : ℚ
  currency : String
  country : String
deriving DecidableEq

/-- `FixedIncomeAsset` (the fields the engine reads; presentation-only
fields such as `interest_payment_frequency`, ratings and the callable flag
are never read by `generateRecommendations` and are omitted).
`maturity_date` is `none` when absent (perpetual bonds); in the source an
absent maturity yields an `Invalid Date` whose `NaN` comparisons exclude
the asset from every date-filtered path, which the `Option` model mirrors. -/
structure FixedIncomeAsset where
  id : String
  user_id : String
  type : AssetType
  issuer_type : IssuerType
  name : String
  maturity_date : Option JSDate
  face_value : ℚ
  purchase_price : ℚ
  current_price : Option ℚ
  interest_rate : ℚ
  currency : String
  region : String
deriving DecidableEq

/-- `LiquidityEvent`. -/
structure LiquidityEvent where
  id : String
  user_id : String
  amount : ℚ
  currency : String
  date : JSDate
  description : String
deriving DecidableEq

/-- `Recommendation.category` literals. -/
inductive RecCategory where
  | rollover
  | diversification
  | laddering
  | liquidity
  | currency
  | regional
  | yield
deriving DecidableEq

/-- `Recommendation` (engine output). -/
structure Recommendation where
  category : RecCategory
  title : String
  description : String
  actionItems : List String
  link : Option String := none
  region : Option String := none
deriving DecidableEq

/-- JavaScript primitives outside the rational model: `Math.pow` on floats,
`Intl.NumberFormat`-based `formatCurrency`, `toFixed(1)` / `toFixed(2)`,
and default number-to-string rendering.  The engine is parameterised by
this bundle; every theorem holds for all instantiations. -/
structure JSPrims where
  pow : ℚ → ℚ → ℚ
  formatCurrency : ℚ → String → String
  toFixed1 : ℚ → String
  toFixed2 : ℚ → String
  numToString : ℚ → String

/-- `getMarketValue` (src/lib/utils.ts): `current_price` when defined and
strictly positive, else `purchase_price`. -/
def getMarketValue (a : FixedIncomeAsset) : ℚ :=
  match a.current_price with
  | some c => if c > 0 then c else a.purchase_price
  | none => a.purchase_price

/-- `getTotalMarketValue` (src/lib/utils.ts). -/
def getTotalMarketValue (assets : List FixedIncomeAsset) : ℚ :=
  assets.foldl (fun s a => s + getMarketValue a) 0

/-- `calculateWeightedAverage` (src/lib/utils.ts): market-value-weighted
average of `valueSelector`, short-circuiting to 0 on empty input or zero
total value. -/
def calculateWeightedAverage (assets : List FixedIncomeAsset)
    (valueSelector : FixedIncomeAsset → ℚ) : ℚ :=
  if assets = [] then 0
  else
    let totalValue := getTotalMarketValue assets
    if totalValue = 0 then 0
    else
      assets.foldl (fun s a => s + valueSelector a * getMarketValue a) 0
        / totalValue

/-- Years to maturity used by `calculateYTM`: `(maturity - now)` in
365-day years, floored at 0.01. -/
def yearsToMaturity (today m : JSDate) : ℚ :=
  max (1/100) ((m.ms - today.ms) / (86400000 * 365))

/-- `calculateYTM` (src/lib/utils.ts).  Perpetual bonds and missing
maturity dates return the nominal rate; the zero-coupon branch uses
`Math.pow` (the `pow` primitive); otherwise the simplified coupon YTM
approximation. -/
def calculateYTM (P : JSPrims) (today : JSDate) (a : FixedIncomeAsset) : ℚ :=
  if a.type = .perpetualBond ∨ a.maturity_date = none then a.interest_rate
  else
    match a.maturity_date with
    | none => a.interest_rate
    | some m =>
      let years := yearsToMaturity today m
      if a.interest_rate = 0 then
        (P.pow (a.face_value / a.purchase_price) (1 / years) - 1) * 100
      else
        let annualCoupon := a.face_value * (a.interest_rate / 100)
        let priceGain := (a.face_value - a.purchase_price) / years
        let averageInvestment := (a.face_value + a.purchase_price) / 2
        ((annualCoupon + priceGain) / averageInvestment) * 100

/-- Term buckets of the approximate-rate table. -/
inductive Term where
  | short
  | medium
  | long
deriving DecidableEq

/-- Regions present as keys of `approximateRates`. -/
def rateRegions : List String :=
  ["eurozone", "uk", "us", "global"]

/-- The `(short, medium, long)` triple of `approximateRates[region][type]`,
`none` when the `(region, type)` key pair is absent. -/
def ratesFor : String → String → Option (ℚ × ℚ × ℚ)
  | "eurozone", "governmentBond" => some (28/10, 31/10, 35/10)
  | "eurozone", "corporateBond" => some (32/10, 37/10, 41/10)
  | "eurozone", "CD" => some (25/10, 29/10, 33/10)
  | "eurozone", "treasuryBill" => some (27/10, 3, 34/10)
  | "eurozone", "moneyMarket" => some (24/10, 0, 0)
  | "uk", "governmentBond" => some (39/10, 42/10, 45/10)
  | "uk", "corporateBond" => some (43/10, 47/10, 51/10)
  | "uk", "CD" => some (37/10, 4, 43/10)
  | "uk", "treasuryBill" => some (38/10, 41/10, 44/10)
  | "uk", "moneyMarket" => some (36/10, 0, 0)
  | "us", "governmentBond" => some (41/10, 45/10, 48/10)
  | "us", "corporateBond" => some (45/10, 5, 54/10)
  | "us", "CD" => some (4, 43/10, 46/10)
  | "us", "treasuryBill" => some (39/10, 42/10, 44/10)
  | "us", "moneyMarket" => some (38/10, 0, 0)
  | "global", "governmentBond" => some (35/10, 39/10, 42/10)
  | "global", "corporateBond" => some (4, 45/10, 48/10)
  | "global", "CD" => some (34/10, 37/10, 4)
  | "global", "treasuryBill" => some (35/10, 38/10, 41/10)
  | "global", "moneyMarket" => some (33/10, 0, 0)
  | _, _ => none

/-- Select one term of a rate triple. -/
def termSel (r : ℚ × ℚ × ℚ) : Term → ℚ
  | .short => r.1
  | .medium => r.2.1
  | .long => r.2.2

/-- `getApproximateRate`: table lookup with fallback to the global
government-bond rates (every present `(region, type)` entry carries all
three terms, so the term-existence check always passes). -/
def getApproximateRate (region ty : String) (term : Term) : ℚ :=
  match ratesFor region ty with
  | some r => termSel r term
  | none => termSel (35/10, 39/10, 42/10) term

/-- Fractional days from `today` to a maturity instant,
`(maturity.getTime() - today.getTime()) / 86400000`. -/
def daysToMaturityOf (today m : JSDate) : ℚ :=
  (m.ms - today.ms) / 86400000

/-- The soon-maturing filter: maturity strictly in the next 90 days. -/
def soonMaturing (today : JSDate) (a : FixedIncomeAsset) : Bool :=
  match a.maturity_date with
  | none => false
  | some m => 0 < daysToMaturityOf today m && daysToMaturityOf today m ≤ 90

/-- Per-asset upcoming liquidity needs: events strictly after `today`, at
most 6 months out, sharing the asset's currency, amounts summed. -/
def liquidityNeedsFor (today : JSDate) (events : List LiquidityEvent)
    (a : FixedIncomeAsset) : ℚ :=
  (events.filter (fun e =>
      today.ms < e.date.ms && e.date.ms ≤ (addMonths today 6).ms
        && e.currency == a.currency)).foldl
    (fun total e => total + e.amount) 0

/-- The validated region used for rate lookups:
`(asset.region in approximateRates) ? asset.region : 'global'`. -/
def rolloverRegion (a : FixedIncomeAsset) : String :=
  if rateRegions.contains a.region then a.region else "global"

/-- The rate-table type key for an asset: bond-like types map to
`governmentBond`, treasury types to `treasuryBill`, then a fallback by
issuer type when the resulting key is not in the table. -/
def assetTypeForRate (a : FixedIncomeAsset) : String :=
  let t0 := if a.type.includesBond then "governmentBond"
    else if a.type.includesTreasury then "treasuryBill"
    else a.type.str
  if (ratesFor (rolloverRegion a) t0).isSome then t0
  else if a.issuer_type = .corporate then "corporateBond"
  else "governmentBond"

/-- The rollover action items of one soon-maturing asset (lines 318-376 of
`page.tsx`): the covered-needs branch keeps the needed amount liquid and
reinvests any remainder; the other branch suggests an approximate-rate
replacement instrument by risk profile, plus an optional cross-region
suggestion. -/
def rolloverOptions (P : JSPrims) (riskTol : RiskTolerance)
    (userRegion : String) (today : JSDate) (events : List LiquidityEvent)
    (a : FixedIncomeAsset) : List String :=
  let liquidityNeeds := liquidityNeedsFor today events a
  let assetMarketValue := getMarketValue a
  if liquidityNeeds > 0 ∧ assetMarketValue ≥ liquidityNeeds then
    ["Keep " ++ P.formatCurrency liquidityNeeds a.currency
        ++ " liquid for upcoming expenses"]
      ++ (if assetMarketValue > liquidityNeeds then
          ["Reinvest "
              ++ P.formatCurrency (assetMarketValue - liquidityNeeds) a.currency
              ++ " in a new fixed income asset"]
        else [])
  else
    let ty := assetTypeForRate a
    let region := rolloverRegion a
    (match riskTol with
      | .conservative =>
        ["Consider a 3-6 month " ++ ty ++ " at approximately "
            ++ P.numToString (getApproximateRate region ty .short) ++ "%"]
      | .moderate =>
        ["Consider a 1-year " ++ ty ++ " at approximately "
            ++ P.numToString (getApproximateRate region ty .medium) ++ "%"]
      | .aggressive =>
        ["Consider a 2+ year " ++ ty ++ " at approximately "
            ++ P.numToString (getApproximateRate region ty .long) ++ "%"])
      ++ (if userRegion ≠ a.region
            ∧ (riskTol = .moderate ∨ riskTol = .aggressive) then
          let alternateRegion := if userRegion = "eurozone" then "uk" else "eurozone"
          let alternateType :=
            if a.issuer_type = .corporate then "corporateBond" else "governmentBond"
          let term : Term := if riskTol = .moderate then .medium else .long
          ["For diversification, consider a "
              ++ (if alternateRegion = "eurozone" then "Eurozone" else "UK")
              ++ " " ++ alternateType ++ " at approximately "
              ++ P.numToString (getApproximateRate alternateRegion alternateType term)
              ++ "%"]
        else [])

/-- `Math.round` of the fractional days to maturity (0 when the maturity is
absent; only applied to soon-maturing assets, which have one). -/
def roundedDaysToMaturity (today : JSDate) (a : FixedIncomeAsset) : ℤ :=
  match a.maturity_date with
  | some m => jsRound (daysToMaturityOf today m)
  | none => 0

/-- The rollover recommendation emitted for one soon-maturing asset. -/
def mkRolloverRec (P : JSPrims) (riskTol : RiskTolerance) (userRegion : String)
    (today : JSDate) (events : List LiquidityEvent)
    (a : FixedIncomeAsset) : Recommendation :=
  { category := .rollover
    title := a.name ++ " matures in "
      ++ toString (roundedDaysToMaturity today a) ++ " days"
    description := "Your " ++ P.formatCurrency (getMarketValue a) a.currency
      ++ " " ++ a.type.str
      ++ " will mature soon. Consider these reinvestment options:"
    actionItems := rolloverOptions P riskTol userRegion today events a
    region := some a.region }

/-- Section 1 of the engine: one rollover recommendation per soon-maturing
asset, in input order. -/
def rolloverRecs (P : JSPrims) (riskTol : RiskTolerance) (userRegion : String)
    (today : JSDate) (events : List LiquidityEvent)
    (assets : List FixedIncomeAsset) : List Recommendation :=
  let soonMaturingAssets := assets.filter (soonMaturing today)
  if soonMaturingAssets = [] then []
  else soonMaturingAssets.map (mkRolloverRec P riskTol userRegion today events)

/-- The five asset groups of the diversification analysis. -/
inductive AssetGroup where
  | government
  | corporate
  | municipal
  | savings
  | other
deriving DecidableEq

/-- Group name string. -/
def AssetGroup.str : AssetGroup → String
  | .government => "government"
  | .corporate => "corporate"
  | .municipal => "municipal"
  | .savings => "savings"
  | .other => "other"

/-- The fixed type-to-group mapping `assetGroups` of `page.tsx` (each type
occurs in exactly one group; `perpetualBond` is corporate). -/
def groupOf : AssetType → AssetGroup
  | .governmentBond | .treasuryBill | .treasuryNote | .treasuryBond
  | .gilts | .bunds | .OATs | .BTPs | .inflationLinkedBond => .government
  | .corporateBond | .structuredNote | .subordinatedBond
  | .perpetualBond => .corporate
  | .municipalBond => .municipal
  | .CD | .savingsBond | .moneyMarket => .savings
  | .other => .other

/-- Iteration order of the group records (JS object insertion order). -/
def groupOrder : List AssetGroup :=
  [.government, .corporate, .municipal, .savings, .other]

/-- Market value accumulated into one group's bucket. -/
def groupSum (assets : List FixedIncomeAsset) (g : AssetGroup) : ℚ :=
  assets.foldl (fun s a => if groupOf a.type = g then s + getMarketValue a else s) 0

/-- A group's share of total market value, as a percentage. -/
def typePct (assets : List FixedIncomeAsset) (g : AssetGroup) : ℚ :=
  groupSum assets g / getTotalMarketValue assets * 100

/-- Add a value under a key of an association list, preserving first-insertion
order (the model of accumulating into a JS string-keyed object). -/
def upsert : List (String × ℚ) → String → ℚ → List (String × ℚ)
  | [], k, v => [(k, v)]
  | (k0, v0) :: t, k, v =>
    if k0 = k then (k0, v0 + v) :: t else (k0, v0) :: upsert t k v

/-- Market-value distribution keyed by `key` (region or currency), in
insertion order. -/
def distByKey (assets : List FixedIncomeAsset)
    (key : FixedIncomeAsset → String) : List (String × ℚ) :=
  assets.foldl (fun l a => upsert l (key a) (getMarketValue a)) []

/-- Convert a distribution to percentages of `total`. -/
def pctList (l : List (String × ℚ)) (total : ℚ) : List (String × ℚ) :=
  l.map (fun p => (p.1, p.2 / total * 100))

/-- First entry of maximal value: the model of
`Object.entries(dist).sort((a, b) => b[1] - a[1])[0]` (the sort is stable,
so ties keep insertion order). -/
def maxEntry : List (String × ℚ) → Option (String × ℚ)
  | [] => none
  | x :: t => some (t.foldl (fun b y => if y.2 > b.2 then y else b) x)

/-- The risk-tolerance-keyed ideal `[min, max]` allocation ranges. -/
def idealDistribution (r : RiskTolerance) (g : AssetGroup) : ℚ × ℚ :=
  match r, g with
  | .conservative, .government => (40, 70)
  | .conservative, .corporate => (10, 30)
  | .conservative, .municipal => (0, 20)
  | .conservative, .savings => (10, 30)
  | .conservative, .other => (0, 10)
  | .moderate, .government => (30, 50)
  | .moderate, .corporate => (20, 40)
  | .moderate, .municipal => (0, 30)
  | .moderate, .savings => (5, 20)
  | .moderate, .other => (0, 15)
  | .aggressive, .government => (15, 40)
  | .aggressive, .corporate => (30, 60)
  | .aggressive, .municipal => (0, 40)
  | .aggressive, .savings => (0, 15)
  | .aggressive, .other => (0, 20)

/-- `user.risk_tolerance` as the string of the source. -/
def riskStr : RiskTolerance → String
  | .conservative => "conservative"
  | .moderate => "moderate"
  | .aggressive => "aggressive"

/-- The imbalance suggestion (zero or one) for one group. -/
def imbalanceFor (P : JSPrims) (risk : RiskTolerance)
    (assets : List FixedIncomeAsset) (g : AssetGroup) : List String :=
  let mn := (idealDistribution risk g).1
  let mx := (idealDistribution risk g).2
  let actual := typePct assets g
  if actual < mn then
    ["Consider increasing " ++ g.str ++ " allocation (currently "
        ++ P.toFixed1 actual ++ "%, target " ++ P.numToString mn ++ "-"
        ++ P.numToString mx ++ "%)"]
  else if actual > mx then
    ["Consider reducing " ++ g.str ++ " allocation (currently "
        ++ P.toFixed1 actual ++ "%, target " ++ P.numToString mn ++ "-"
        ++ P.numToString mx ++ "%)"]
  else []

/-- All allocation-imbalance suggestions, in group order. -/
def imbalances (P : JSPrims) (risk : RiskTolerance)
    (assets : List FixedIncomeAsset) : List String :=
  groupOrder.foldr (fun g acc => imbalanceFor P risk assets g ++ acc) []

/-- Suggestions of the regional-concentration recommendation. -/
def regionalSuggestionsFor (P : JSPrims) (name : String) (pct : ℚ) :
    List String :=
  (if name = "eurozone" then
    ["Consider adding UK or US fixed income assets to diversify from Eurozone exposure"]
  else if name = "uk" then
    ["Consider adding Eurozone fixed income assets to diversify from UK exposure"]
  else if name = "us" then
    ["Consider adding European fixed income assets to diversify from US exposure"]
  else [])
    ++ [name ++ " represents " ++ P.toFixed1 pct ++ "% of your portfolio"]

/-- Section 2.1: regional concentration above 70%. -/
def regionalRecs (P : JSPrims) (assets : List FixedIncomeAsset) :
    List Recommendation :=
  match maxEntry (pctList (distByKey assets (fun a => a.region))
      (getTotalMarketValue assets)) with
  | some dom =>
    if dom.2 > 70 then
      [{ category := .regional
         title := "Geographical Diversification"
         description := "Your portfolio is highly concentrated in one region:"
         actionItems := regionalSuggestionsFor P dom.1 dom.2 }]
    else []
  | none => []

/-- Suggestions of the currency-concentration recommendation. -/
def currencySuggestionsFor (P : JSPrims) (name : String) (pct : ℚ) :
    List String :=
  (if name = "EUR" then
    ["Consider adding GBP or USD denominated assets to reduce Euro exposure"]
  else if name = "GBP" then
    ["Consider adding EUR or USD denominated assets to reduce Pound exposure"]
  else if name = "USD" then
    ["Consider adding EUR or GBP denominated assets to reduce Dollar exposure"]
  else [])
    ++ [name ++ " represents " ++ P.toFixed1 pct ++ "% of your portfolio value"]

/-- Section 2.2: currency concentration above 80%. -/
def currencyRecs (P : JSPrims) (assets : List FixedIncomeAsset) :
    List Recommendation :=
  match maxEntry (pctList (distByKey assets (fun a => a.currency))
      (getTotalMarketValue assets)) with
  | some dom =>
    if dom.2 > 80 then
      [{ category := .currency
         title := "Currency Diversification"
         description := "Your portfolio is concentrated in one currency:"
         actionItems := currencySuggestionsFor P dom.1 dom.2 }]
    else []
  | none => []

/-- Section 2 of the engine: allocation imbalances plus regional and
currency concentration, gated on at least 2 assets. -/
def diversificationRecs (P : JSPrims) (risk : RiskTolerance)
    (assets : List FixedIncomeAsset) : List Recommendation :=
  if assets.length ≥ 2 then
    (if imbalances P risk assets ≠ [] then
      [{ category := .diversification
         title := "Portfolio Balance Optimization"
         description := "Based on your " ++ riskStr risk
           ++ " risk profile, we recommend adjusting your asset allocation:"
         actionItems := imbalances P risk assets }]
    else [])
      ++ regionalRecs P assets ++ currencyRecs P assets
  else []

/-- Maturity year of a non-perpetual asset (perpetual bonds are skipped by
the laddering bucketing; absent maturities yield no bucket). -/
def nonPerpYear (a : FixedIncomeAsset) : Option ℕ :=
  if a.type = .perpetualBond then none else a.maturity_date.map (fun m => m.year)

/-- Number of bucketed assets maturing in year `y`. -/
def countInYear (assets : List FixedIncomeAsset) (y : ℕ) : ℕ :=
  (assets.filterMap nonPerpYear).count y

/-- The distinct maturity years present, ascending (JS objects iterate
integer-like keys in ascending numeric order, and the subsequent string
sort of four-digit years preserves that order). -/
def maturityYears (assets : List FixedIncomeAsset) : List ℕ :=
  ((assets.filterMap nonPerpYear).dedup).mergeSort (fun x y => decide (x ≤ y))

/-- Some maturity year holds at least 3 assets. -/
def hasClusteredMaturities (assets : List FixedIncomeAsset) : Bool :=
  (maturityYears assets).any (fun y => countInYear assets y ≥ 3)

/-- The year with the most maturities (first such year in ascending order,
mirroring the strict-greater update over ascending entries). -/
def clusterYear (assets : List FixedIncomeAsset) : Option ℕ :=
  ((maturityYears assets).foldl
    (fun b y => if countInYear assets y > b.2 then (some y, countInYear assets y) else b)
    ((none : Option ℕ), 0)).1

/-- Years from the current year through +5 with no bucketed maturities. -/
def missingYears (today : JSDate) (assets : List FixedIncomeAsset) : List ℕ :=
  (List.range 6).filterMap (fun i =>
    let y := today.year + i
    if countInYear assets y = 0 then some y else none)

/-- The laddering action items: a spread-the-cluster suggestion and up to
three fill-the-gap suggestions. -/
def ladderSuggestions (today : JSDate) (assets : List FixedIncomeAsset) :
    List String :=
  (if hasClusteredMaturities assets then
    match clusterYear assets with
    | some y =>
      ["Diversify your " ++ toString y
          ++ " maturities into other years to smooth your cash flow"]
    | none => []
  else [])
    ++ ((missingYears today assets).take 3).map (fun y =>
      "Consider adding securities maturing in " ++ toString y
        ++ " to complete your ladder")

/-- Section 3 of the engine: bond laddering, gated on at least 3 assets
(of any type; perpetual bonds are excluded from the buckets only). -/
def ladderingRecs (today : JSDate) (assets : List FixedIncomeAsset) :
    List Recommendation :=
  if assets.length ≥ 3 then
    if hasClusteredMaturities assets ∨ missingYears today assets ≠ [] then
      if ladderSuggestions today assets ≠ [] then
        [{ category := .laddering
           title := "Bond Ladder Optimization"
           description := "A well-structured bond ladder can help balance liquidity needs with yield:"
           actionItems := ladderSuggestions today assets }]
      else []
    else []
  else []

/-- An event contributes to the needs of absolute month `mi`: not before
`today`, month difference below 24, dated in month `mi`, in the user's
currency.  (`mi` is only ever queried inside the 24-month window, which
models the `liquidityByMonth[monthKey]` existence check.) -/
def eventInMonth (today : JSDate) (userCurrency : String)
    (e : LiquidityEvent) (mi : ℕ) : Bool :=
  !(e.date.ms < today.ms) && differenceInMonths e.date today < 24
    && e.date.monthIndex == mi && e.currency == userCurrency

/-- Summed needs of absolute month `mi`. -/
def needsIn (today : JSDate) (userCurrency : String)
    (events : List LiquidityEvent) (mi : ℕ) : ℚ :=
  (events.filter (fun e => eventInMonth today userCurrency e mi)).foldl
    (fun s e => s + e.amount) 0

/-- A non-perpetual asset matures (by face value) in absolute month `mi`.
A missing maturity date on a non-perpetual asset is excluded here (in the
source that case reaches `format` with an Invalid Date, which throws; the
data-model invariant rules it out). -/
def assetMaturesInMonth (today : JSDate) (userCurrency : String)
    (a : FixedIncomeAsset) (mi : ℕ) : Bool :=
  !(a.type == .perpetualBond)
    && (match a.maturity_date with
      | some m =>
        !(m.ms < today.ms) && differenceInMonths m today < 24
          && m.monthIndex == mi && a.currency == userCurrency
      | none => false)

/-- Summed maturity proceeds (face values) of absolute month `mi`. -/
def matsIn (today : JSDate) (userCurrency : String)
    (assets : List FixedIncomeAsset) (mi : ℕ) : ℚ :=
  (assets.filter (fun a => assetMaturesInMonth today userCurrency a mi)).foldl
    (fun s a => s + a.face_value) 0

/-- Accumulator of the chronological liquidity walk. -/
structure LiqAcc where
  cum : ℚ
  shortfalls : List String
  surpluses : List String
  criticals : List ℕ
deriving DecidableEq

/-- Shortfall entry string for month `mi`. -/
def shortfallStr (P : JSPrims) (userCurrency : String) (needs mats : ℚ)
    (mi : ℕ) : String :=
  fmtMonthYear mi ++ ": " ++ P.formatCurrency (needs - mats) userCurrency
    ++ " shortfall"

/-- Surplus entry string for month `mi`. -/
def surplusStr (P : JSPrims) (userCurrency : String) (needs mats : ℚ)
    (mi : ℕ) : String :=
  fmtMonthYear mi ++ ": " ++ P.formatCurrency (mats - needs) userCurrency
    ++ " surplus"

/-- One step of the walk (lines 686-704 of `page.tsx`): accumulate the
monthly net flow, record shortfall/surplus strings for months with nonzero
needs, and flag a critical month when the shortfall exceeds 20% of the
need and the cumulative position is negative.  `0.2` and `1.5` are the
rationals `1/5` and `3/2`. -/
def liqStep (P : JSPrims) (today : JSDate) (userCurrency : String)
    (assets : List FixedIncomeAsset) (events : List LiquidityEvent)
    (s : LiqAcc) (mi : ℕ) : LiqAcc :=
  let needs := needsIn today userCurrency events mi
  let mats := matsIn today userCurrency assets mi
  let cum := s.cum + (mats - needs)
  if needs > 0 then
    if mats < needs then
      { cum := cum
        shortfalls := s.shortfalls ++ [shortfallStr P userCurrency needs mats mi]
        surpluses := s.surpluses
        criticals := s.criticals
          ++ (if needs - mats > needs * (1/5) ∧ cum < 0 then [mi] else []) }
    else if mats > needs * (3/2) then
      { cum := cum
        shortfalls := s.shortfalls
        surpluses := s.surpluses ++ [surplusStr P userCurrency needs mats mi]
        criticals := s.criticals }
    else { s with cum := cum }
  else { s with cum := cum }

/-- The 24 consecutive absolute months starting with the current month. -/
def monthsWindow (today : JSDate) : List ℕ :=
  (List.range 24).map (fun i => today.monthIndex + i)

/-- The chronological liquidity walk over the 24-month window. -/
def liqWalk (P : JSPrims) (today : JSDate) (userCurrency : String)
    (assets : List FixedIncomeAsset) (events : List LiquidityEvent) : LiqAcc :=
  (monthsWindow today).foldl (liqStep P today userCurrency assets events)
    ⟨0, [], [], []⟩

/-- First instant of absolute month `mi`: the model of
`new Date(criticalShortfalls[0] + "-01")`.  The argument string is, e.g.,
`"Feb 2026-01"`; the V8 legacy date parser reads the month name, then
(after the skipped `-` following a day-composer number) `2026` and `01`
as year and day-of-month, yielding the first instant of that month. -/
def firstOfMonth (mi : ℕ) : JSDate :=
  ⟨mi / 12, mi % 12 + 1, 1, 0⟩

/-- Candidate assets for early sale given the earliest critical month:
perpetual bonds unconditionally, plus non-perpetual assets in the user's
currency maturing strictly after that month's first instant, each paired
with its market value. -/
def saleCandidates (userCurrency : String) (assets : List FixedIncomeAsset)
    (earliestCritical : JSDate) : List (FixedIncomeAsset × ℚ) :=
  assets.filterMap (fun a =>
    if a.type = .perpetualBond then some (a, getMarketValue a)
    else
      match a.maturity_date with
      | some m =>
        if m.ms > earliestCritical.ms ∧ a.currency = userCurrency then
          some (a, getMarketValue a)
        else none
      | none => none)

/-- `assetsAvailableForSale`: empty unless a critical shortfall exists. -/
def candidatesOf (userCurrency : String) (assets : List FixedIncomeAsset)
    (criticals : List ℕ) : List (FixedIncomeAsset × ℚ) :=
  match criticals.head? with
  | some mi => saleCandidates userCurrency assets (firstOfMonth mi)
  | none => []

/-- Premium-to-face-value ratio of a sale candidate. -/
def premiumOf (c : FixedIncomeAsset × ℚ) : ℚ :=
  c.2 / c.1.face_value - 1

/-- Candidates sorted by ascending premium (largest discount first); the
stable merge sort models the stable JS sort with comparator
`premiumA - premiumB`. -/
def sortedCandidates (cs : List (FixedIncomeAsset × ℚ)) :
    List (FixedIncomeAsset × ℚ) :=
  cs.mergeSort (fun x y => decide (premiumOf x ≤ premiumOf y))

/-- The sale suggestion string for the best candidate. -/
def sellLine (P : JSPrims) (userCurrency : String)
    (b : FixedIncomeAsset × ℚ) : String :=
  let premium := premiumOf b
  if premium < 0 then
    "Consider selling " ++ b.1.name ++ " at "
      ++ P.formatCurrency b.2 userCurrency ++ " ("
      ++ P.toFixed1 (premium * 100) ++ "% discount to face value)"
  else
    "Consider selling " ++ b.1.name ++ " at "
      ++ P.formatCurrency b.2 userCurrency ++ " ("
      ++ P.toFixed1 (premium * 100) ++ "% premium to face value)"

/-- `.join(', ')`. -/
def joinComma (l : List String) : String :=
  String.intercalate ", " l

/-- The sampled shortfall list line: first three entries, plus a remainder
count. -/
def gapsLine (shortfalls : List String) : String :=
  "Upcoming liquidity gaps: " ++ joinComma (shortfalls.take 3)
    ++ (if shortfalls.length > 3 then
        " and " ++ toString (shortfalls.length - 3) ++ " more"
      else "")

/-- The action items of the shortfall-branch liquidity recommendation
(lines 737-785 of `page.tsx`). -/
def liquidityActionsOf (P : JSPrims) (userCurrency : String) (w : LiqAcc)
    (candidates : List (FixedIncomeAsset × ℚ)) : List String :=
  (if w.criticals ≠ [] then
    ["Critical liquidity gaps detected in: "
        ++ joinComma (w.criticals.map fmtMonthYear)]
  else [])
    ++ (if w.shortfalls ≠ [] then [gapsLine w.shortfalls] else [])
    ++ (let totalSellableValue := candidates.foldl (fun s c => s + c.2) 0
      if totalSellableValue > 0 then
        ["You have " ++ P.formatCurrency totalSellableValue userCurrency
            ++ " in assets that could be sold to meet liquidity needs"]
          ++ (if w.criticals ≠ [] ∧ candidates ≠ [] then
              match (sortedCandidates candidates).head? with
              | some b => [sellLine P userCurrency b]
              | none => []
            else [])
      else
        ["Consider establishing a credit line or holding more cash-equivalent assets for liquidity needs",
         "Short-term Treasury bills or money market funds can provide necessary liquidity"])
    ++ (if w.surpluses ≠ [] then
        ["Adjust your maturity ladder to better match cash flow needs with maturities"]
      else [])

/-- Section 4 of the engine: the liquidity projection, gated on at least
one liquidity event.  The shortfall branch takes priority; otherwise a
surplus-only recommendation may be emitted. -/
def liquidityRecs (P : JSPrims) (today : JSDate) (userCurrency : String)
    (assets : List FixedIncomeAsset) (events : List LiquidityEvent) :
    List Recommendation :=
  if events = [] then []
  else
    let w := liqWalk P today userCurrency assets events
    let candidates := candidatesOf userCurrency assets w.criticals
    if w.shortfalls ≠ [] then
      [{ category := .liquidity
         title := "Liquidity Risk Management"
         description := "Your upcoming expenses require careful liquidity planning:"
         actionItems := liquidityActionsOf P userCurrency w candidates }]
    else if w.surpluses ≠ [] then
      [{ category := .liquidity
         title := "Reinvestment Opportunities"
         description := "You have upcoming periods with excess liquidity after expenses:"
         actionItems :=
           ["Upcoming surplus periods: " ++ joinComma (w.surpluses.take 3)
               ++ (if w.surpluses.length > 3 then
                   " and " ++ toString (w.surpluses.length - 3) ++ " more"
                 else ""),
            "Consider pre-planning reinvestment options for these surplus periods",
            "Look for attractive fixed income opportunities in advance of maturity dates"] }]
    else []

/-- The market-value-weighted average yield of the yield section. -/
def weightedYieldOf (P : JSPrims) (today : JSDate)
    (assets : List FixedIncomeAsset) : ℚ :=
  assets.foldl (fun s a => s + calculateYTM P today a * getMarketValue a) 0
    / getTotalMarketValue assets

/-- Section 5 of the engine: region-specific yield commentary, gated on at
least 3 assets. -/
def yieldRecs (P : JSPrims) (today : JSDate) (userRegion : String)
    (assets : List FixedIncomeAsset) : List Recommendation :=
  if assets.length ≥ 3 then
    let weightedYield := weightedYieldOf P today assets
    let yieldSuggestions :=
      if userRegion = "eurozone" ∧ weightedYield < 3 then
        ["Consider peripheral Eurozone government bonds (Italy, Spain) for higher yields",
         "Investment grade corporate bonds can offer yield premiums over government debt"]
      else if userRegion = "uk" ∧ weightedYield < 4 then
        ["Consider longer-dated gilts for better yield",
         "UK corporate bonds offer a yield premium over government securities"]
      else []
    if yieldSuggestions ≠ [] then
      [{ category := .yield
         title := "Yield Enhancement Strategies"
         description := "Your current portfolio yield is "
           ++ P.toFixed2 weightedYield ++ "%. Consider these options:"
         actionItems := yieldSuggestions
         region := some userRegion }]
    else []
  else []

/-- `user.currency || 'EUR'` (the empty string is the falsy case). -/
def userCurrencyOf (u : User) : String :=
  if u.currency = "" then "EUR" else u.currency

/-- `user.country || 'eurozone'`. -/
def userRegionOf (u : User) : String :=
  if u.country = "" then "eurozone" else u.country

/-- `generateRecommendations` (lines 257-842 of `page.tsx`): the early
return on an absent user or empty asset list, then the five analyses in
source order.  `user` is an `Option` to model the `!user` runtime guard. -/
def generateRecommendations (P : JSPrims) (today : JSDate)
    (user : Option User) (assets : List FixedIncomeAsset)
    (events : List LiquidityEvent) : List Recommendation :=
  match user with
  | none => []
  | some u =>
    if assets = [] then []
    else
      rolloverRecs P u.risk_tolerance (userRegionOf u) today events assets
        ++ diversificationRecs P u.risk_tolerance assets
        ++ ladderingRecs today assets
        ++ liquidityRecs P today (userCurrencyOf u) assets events
        ++ yieldRecs P today (userRegionOf u) assets

/-- A checked division guard: fails exactly on a zero denominator. -/
def divGuard (d : ℚ) : Except String Unit :=
  if d = 0 then Except.error "division by zero" else Except.ok ()

/-- Sequence a check over a list, failing on the first failure. -/
def checkAll {α : Type} (f : α → Except String Unit) :
    List α → Except String Unit
  | [] => Except.ok ()
  | a :: t => do
    f a
    checkAll f t

/-- `calculateYTM` with every division site guarded: the years floor, the
zero-coupon base `face / purchase`, and the coupon-branch average
investment `(face + purchase) / 2`. -/
def calculateYTME (P : JSPrims) (today : JSDate) (a : FixedIncomeAsset) :
    Except String ℚ :=
  if a.type = .perpetualBond ∨ a.maturity_date = none then
    Except.ok a.interest_rate
  else
    match a.maturity_date with
    | none => Except.ok a.interest_rate
    | some m => do
      divGuard (yearsToMaturity today m)
      if a.interest_rate = 0 then do
        divGuard a.purchase_price
        Except.ok (calculateYTM P today a)
      else do
        divGuard ((a.face_value + a.purchase_price) / 2)
        Except.ok (calculateYTM P today a)

/-- Section 2 with its division site guarded: the three percentage loops
divide by the total portfolio market value whenever the section runs. -/
def diversificationRecsE (P : JSPrims) (risk : RiskTolerance)
    (assets : List FixedIncomeAsset) : Except String (List Recommendation) :=
  if assets.length ≥ 2 then do
    divGuard (getTotalMarketValue assets)
    Except.ok (diversificationRecs P risk assets)
  else Except.ok []

/-- Section 4 with its division sites guarded: premium-to-face ratios are
computed (in the sale-candidate sort and the sale suggestion) exactly when
the shortfall branch runs with a critical month, candidates and positive
sellable value. -/
def liquidityRecsE (P : JSPrims) (today : JSDate) (userCurrency : String)
    (assets : List FixedIncomeAsset) (events : List LiquidityEvent) :
    Except String (List Recommendation) :=
  if events = [] then Except.ok []
  else do
    let w := liqWalk P today userCurrency assets events
    let candidates := candidatesOf userCurrency assets w.criticals
    let totalSellableValue : ℚ := candidates.foldl (fun s c => s + c.2) 0
    let _ ← (if w.shortfalls ≠ [] ∧ totalSellableValue > 0 ∧ w.criticals ≠ [] then
        checkAll (fun c => divGuard c.1.face_value) candidates
      else Except.ok ())
    Except.ok (liquidityRecs P today userCurrency assets events)

/-- Section 5 with its division sites guarded: every asset's YTM, then the
weighted-yield division by total market value. -/
def yieldRecsE (P : JSPrims) (today : JSDate) (userRegion : String)
    (assets : List FixedIncomeAsset) : Except String (List Recommendation) :=
  if assets.length ≥ 3 then do
    checkAll (fun a => do
      let _ ← calculateYTME P today a
      Except.ok ()) assets
    divGuard (getTotalMarketValue assets)
    Except.ok (yieldRecs P today userRegion assets)
  else Except.ok []

/-- `generateRecommendations` with every ratio's denominator checked: a
run that returns `Except.ok` performed no division by zero. -/
def generateRecommendationsE (P : JSPrims) (today : JSDate)
    (user : Option User) (assets : List FixedIncomeAsset)
    (events : List LiquidityEvent) : Except String (List Recommendation) :=
  match user with
  | none => Except.ok []
  | some u =>
    if assets = [] then Except.ok []
    else do
      let dv ← diversificationRecsE P u.risk_tolerance assets
      let li ← liquidityRecsE P today (userCurrencyOf u) assets events
      let yi ← yieldRecsE P today (userRegionOf u) assets
      Except.ok (rolloverRecs P u.risk_tolerance (userRegionOf u) today events assets
        ++ dv ++ ladderingRecs today assets ++ li ++ yi)

/-- The data-model invariants of the spec that the safety claim assumes:
strictly positive face value and purchase price. -/
def WFAssets (assets : List FixedIncomeAsset) : Prop :=
  ∀ a ∈ assets, 0 < a.face_value ∧ 0 < a.purchase_price

instance : DecidablePred WFAssets := fun assets =>
  List.decidableBAll _ assets

/-! ### Foundational lemmas -/

theorem foldl_add_eq {α : Type} (f : α → ℚ) (l : List α) (c : ℚ) :
    l.foldl (fun s a => s + f a) c = c + (l.map f).sum := by
  induction l generalizing c with
  | nil => simp
  | cons a t ih => simp [List.foldl, ih]; ring

theorem foldl_add_if_eq {α : Type} (p : α → Prop) [DecidablePred p]
    (f : α → ℚ) (l : List α) (c : ℚ) :
    l.foldl (fun s a => if p a then s + f a else s) c
      = c + ((l.filter (fun a => decide (p a))).map f).sum := by
  induction l generalizing c with
  | nil => simp
  | cons a t ih =>
    by_cases h : p a
    · simp [List.foldl, h, ih]; ring
    · simp [List.foldl, h, ih]

theorem getMarketValue_pos (a : FixedIncomeAsset)
    (h : 0 < a.purchase_price) : 0 < getMarketValue a := by
  unfold getMarketValue
  match hc : a.current_price with
  | none => exact h
  | some c =>
    by_cases hpos : c > 0
    · simp only [if_pos hpos]; exact hpos
    · simp only [if_neg hpos]; exact h

theorem getTotalMarketValue_pos (assets : List FixedIncomeAsset)
    (hne : assets ≠ []) (hWF : WFAssets assets) :
    0 < getTotalMarketValue assets := by
  unfold getTotalMarketValue
  rw [foldl_add_eq]
  match assets, hne with
  | a :: t, _ =>
    have ha : 0 < getMarketValue a :=
      getMarketValue_pos a (hWF a (by simp)).2
    have ht : 0 ≤ (t.map getMarketValue).sum := by
      apply List.sum_nonneg
      intro x hx
      obtain ⟨b, hb, rfl⟩ := List.mem_map.mp hx
      exact le_of_lt (getMarketValue_pos b (hWF b (by simp [hb])).2)
    simp only [List.map_cons, List.sum_cons]
    linarith


theorem mem_rolloverRecs {P : JSPrims} {riskTol : RiskTolerance}
    {userRegion : String} {today : JSDate} {events : List LiquidityEvent}
    {assets : List FixedIncomeAsset} {r : Recommendation}
    (h : r ∈ rolloverRecs P riskTol userRegion today events assets) :
    ∃ a ∈ assets, soonMaturing today a = true
      ∧ r = mkRolloverRec P riskTol userRegion today events a := by
  simp only [rolloverRecs] at h
  split at h
  · exact absurd h (List.not_mem_nil r)
  · obtain ⟨a, ha, rfl⟩ := List.mem_map.mp h
    exact ⟨a, (List.mem_filter.mp ha).1, (List.mem_filter.mp ha).2, rfl⟩

theorem mem_regionalRecs {P : JSPrims} {assets : List FixedIncomeAsset}
    {r : Recommendation} (h : r ∈ regionalRecs P assets) :
    r.category = RecCategory.regional
      ∧ ∃ n q, r.actionItems = regionalSuggestionsFor P n q := by
  simp only [regionalRecs] at h
  split at h
  · split at h
    · simp only [List.mem_singleton] at h
      subst h
      exact ⟨rfl, _, _, rfl⟩
    · exact absurd h (List.not_mem_nil r)
  · exact absurd h (List.not_mem_nil r)

theorem mem_currencyRecs {P : JSPrims} {assets : List FixedIncomeAsset}
    {r : Recommendation} (h : r ∈ currencyRecs P assets) :
    r.category = RecCategory.currency
      ∧ ∃ n q, r.actionItems = currencySuggestionsFor P n q := by
  simp only [currencyRecs] at h
  split at h
  · split at h
    · simp only [List.mem_singleton] at h
      subst h
      exact ⟨rfl, _, _, rfl⟩
    · exact absurd h (List.not_mem_nil r)
  · exact absurd h (List.not_mem_nil r)

theorem mem_diversificationRecs {P : JSPrims} {risk : RiskTolerance}
    {assets : List FixedIncomeAsset} {r : Recommendation}
    (h : r ∈ diversificationRecs P risk assets) :
    (r.category = RecCategory.diversification
        ∧ imbalances P risk assets ≠ [] ∧ r.actionItems = imbalances P risk assets)
      ∨ r ∈ regionalRecs P assets ∨ r ∈ currencyRecs P assets := by
  simp only [diversificationRecs] at h
  split at h
  · rcases List.mem_append.mp h with h1 | h34
    · rcases List.mem_append.mp h1 with h1 | h1
      · split at h1
        · simp only [List.mem_singleton] at h1
          subst h1
          exact Or.inl ⟨rfl, by assumption, rfl⟩
        · exact absurd h1 (List.not_mem_nil r)
      · exact Or.inr (Or.inl h1)
    · exact Or.inr (Or.inr h34)
  · exact absurd h (List.not_mem_nil r)

theorem mem_ladderingRecs {today : JSDate} {assets : List FixedIncomeAsset}
    {r : Recommendation} (h : r ∈ ladderingRecs today assets) :
    r.category = RecCategory.laddering
      ∧ ladderSuggestions today assets ≠ []
      ∧ r.actionItems = ladderSuggestions today assets := by
  simp only [ladderingRecs] at h
  split at h
  · split at h
    · split at h
      · simp only [List.mem_singleton] at h
        subst h
        exact ⟨rfl, by assumption, rfl⟩
      · exact absurd h (List.not_mem_nil r)
    · exact absurd h (List.not_mem_nil r)
  · exact absurd h (List.not_mem_nil r)

theorem mem_liquidityRecs {P : JSPrims} {today : JSDate} {uc : String}
    {assets : List FixedIncomeAsset} {events : List LiquidityEvent}
    {r : Recommendation} (h : r ∈ liquidityRecs P today uc assets events) :
    r.category = RecCategory.liquidity
      ∧ (r.actionItems = liquidityActionsOf P uc
            (liqWalk P today uc assets events)
            (candidatesOf uc assets (liqWalk P today uc assets events).criticals)
        ∨ ∃ hd s2 s3, r.actionItems = hd :: s2 :: s3 :: []) := by
  simp only [liquidityRecs] at h
  split at h
  · exact absurd h (List.not_mem_nil r)
  · split at h
    · simp only [List.mem_singleton] at h
      subst h
      exact ⟨rfl, Or.inl rfl⟩
    · split at h
      · simp only [List.mem_singleton] at h
        subst h
        exact ⟨rfl, Or.inr ⟨_, _, _, rfl⟩⟩
      · exact absurd h (List.not_mem_nil r)

theorem mem_yieldRecs {P : JSPrims} {today : JSDate} {userRegion : String}
    {assets : List FixedIncomeAsset} {r : Recommendation}
    (h : r ∈ yieldRecs P today userRegion assets) :
    r.category = RecCategory.yield ∧ r.actionItems ≠ [] := by
  simp only [yieldRecs] at h
  repeat' split at h
  all_goals
    first
    | exact absurd h (List.not_mem_nil r)
    | exact absurd rfl ‹([] : List String) ≠ []›
    | (simp only [List.mem_singleton] at h
       subst h
       exact ⟨rfl, by simp⟩)

theorem filter_cat_nil {l : List Recommendation} {c : RecCategory}
    (h : ∀ r ∈ l, r.category ≠ c) :
    l.filter (fun r => r.category == c) = [] := by
  rw [List.filter_eq_nil_iff]
  intro r hr
  simp [h r hr]

theorem filter_cat_self {l : List Recommendation} {c : RecCategory}
    (h : ∀ r ∈ l, r.category = c) :
    l.filter (fun r => r.category == c) = l := by
  rw [List.filter_eq_self]
  intro r hr
  simp [h r hr]

theorem rolloverRecs_eq_map (P : JSPrims) (rt : RiskTolerance) (ur : String)
    (today : JSDate) (events : List LiquidityEvent)
    (assets : List FixedIncomeAsset) :
    rolloverRecs P rt ur today events assets
      = (assets.filter (soonMaturing today)).map (mkRolloverRec P rt ur today events) := by
  unfold rolloverRecs
  by_cases h : assets.filter (soonMaturing today) = []
  · simp [h]
  · simp [h]

/-! ### Concrete fixtures used by witnesses and counterexamples -/

/-- A trivial primitive bundle (used to instantiate universally quantified
theorems at concrete inputs). -/
def trivPrims : JSPrims :=
  ⟨fun _ _ => 0, fun _ _ => "", fun _ => "", fun _ => "", fun _ => ""⟩

/-- A primitive bundle rendering currency amounts as their integer
numerator (our concrete amounts are integers). -/
def numPrims : JSPrims :=
  ⟨fun _ _ => 0, fun q _ => toString q.num, fun _ => "", fun _ => "",
    fun _ => ""⟩

/-- Concrete "now": 2026-01-15, midnight UTC. -/
def wToday : JSDate := ⟨2026, 1, 15, 0⟩

/-- Concrete conservative Eurozone user. -/
def wUser : User := ⟨"u1", "N", "n at example.com", .conservative, 0, "EUR", "eurozone"⟩

/-- Concrete government bond of the section-8 scenario: face 10000,
purchase 9800, no current price, 2%, maturing 2026-03-01 (45 days). -/
def wBond : FixedIncomeAsset :=
  ⟨"b1", "u1", .governmentBond, .government, "Gov Bond", some ⟨2026, 3, 1, 0⟩,
    10000, 9800, none, 2, "EUR", "eurozone"⟩

/-- Concrete liquidity event of the section-8 scenario: 5000 EUR at
2026-03-16 (60 days out). -/
def wEvent : LiquidityEvent :=
  ⟨"e1", "u1", 5000, "EUR", ⟨2026, 3, 16, 0⟩, "tuition"⟩

/-- Concrete liquidity event for the shortfall scenario: 1000 EUR next
month (2026-02-10). -/
def wEventNextMonth : LiquidityEvent :=
  ⟨"e2", "u1", 1000, "EUR", ⟨2026, 2, 10, 0⟩, "rent"⟩

/-- A perpetual bond (name parameterised); face 1000, purchase 900. -/
def wPerp (nm : String) : FixedIncomeAsset :=
  ⟨nm, "u1", .perpetualBond, .corporate, nm, none, 1000, 900, none, 5,
    "EUR", "eurozone"⟩

/-- A second government bond (maturity 2027-06-01, far out). -/
def wBondFar : FixedIncomeAsset :=
  ⟨"b2", "u1", .governmentBond, .government, "Far Bond", some ⟨2027, 6, 1, 0⟩,
    2000, 1900, none, 3, "EUR", "eurozone"⟩

/-- C1: `generateRecommendations` returns the empty list on an empty asset
list (for every user and event list) and on an absent user (for every
asset and event list). -/
theorem generateRecommendations_empty (P : JSPrims) (today : JSDate) :
    (∀ (u : User) (events : List LiquidityEvent),
      generateRecommendations P today (some u) [] events = [])
    ∧ (∀ (assets : List FixedIncomeAsset) (events : List LiquidityEvent),
      generateRecommendations P today none assets events = []) := by
  constructor
  · intro u events
    simp [generateRecommendations]
  · intro assets events
    simp [generateRecommendations]

/-- C8: `getMarketValue` returns `current_price` exactly when it is
defined and strictly positive, and `purchase_price` otherwise — including
when `current_price` is 0 or negative — regardless of asset type. -/
theorem getMarketValue_spec (a : FixedIncomeAsset) :
    (∀ c : ℚ, a.current_price = some c → 0 < c → getMarketValue a = c)
    ∧ (a.current_price = none → getMarketValue a = a.purchase_price)
    ∧ (∀ c : ℚ, a.current_price = some c → c ≤ 0 →
        getMarketValue a = a.purchase_price) := by
  refine ⟨?_, ?_, ?_⟩
  · intro c hc hpos
    simp [getMarketValue, hc, hpos]
  · intro hc
    simp [getMarketValue, hc]
  · intro c hc hneg
    simp [getMarketValue, hc, not_lt.mpr hneg]

/-- Witness for C8 at concrete assets: a positive current price is
returned; a zero current price and an absent one fall back to the
purchase price. -/
theorem getMarketValue_spec_witness :
    getMarketValue ⟨"a1", "u1", .governmentBond, .government, "A", none,
        1000, 900, some 950, 2, "EUR", "eurozone"⟩ = 950
    ∧ getMarketValue ⟨"a2", "u1", .CD, .financial, "B", none,
        1000, 900, some 0, 2, "EUR", "eurozone"⟩ = 900
    ∧ getMarketValue ⟨"a3", "u1", .other, .other, "C", none,
        1000, 900, none, 2, "EUR", "eurozone"⟩ = 900 :=
  ⟨(getMarketValue_spec _).1 950 rfl (by norm_num),
   (getMarketValue_spec _).2.2 0 rfl (by norm_num),
   (getMarketValue_spec _).2.1 rfl⟩

theorem generateRecommendations_eq (P : JSPrims) (today : JSDate) (u : User)
    (assets : List FixedIncomeAsset) (events : List LiquidityEvent)
    (hne : assets ≠ []) :
    generateRecommendations P today (some u) assets events
      = rolloverRecs P u.risk_tolerance (userRegionOf u) today events assets
        ++ diversificationRecs P u.risk_tolerance assets
        ++ ladderingRecs today assets
        ++ liquidityRecs P today (userCurrencyOf u) assets events
        ++ yieldRecs P today (userRegionOf u) assets := by
  simp [generateRecommendations, hne]

theorem rollover_filter_nil {P : JSPrims} {rt : RiskTolerance} {ur : String}
    {today : JSDate} {events : List LiquidityEvent}
    {assets : List FixedIncomeAsset} {c : RecCategory}
    (h : c ≠ RecCategory.rollover) :
    (rolloverRecs P rt ur today events assets).filter
      (fun r => r.category == c) = [] :=
  filter_cat_nil (fun r hr => by
    obtain ⟨a, _, _, rfl⟩ := mem_rolloverRecs hr
    exact Ne.symm h)

theorem divers_filter_nil {P : JSPrims} {risk : RiskTolerance}
    {assets : List FixedIncomeAsset} {c : RecCategory}
    (h1 : c ≠ RecCategory.diversification) (h2 : c ≠ RecCategory.regional)
    (h3 : c ≠ RecCategory.currency) :
    (diversificationRecs P risk assets).filter
      (fun r => r.category == c) = [] :=
  filter_cat_nil (fun r hr => by
    rcases mem_diversificationRecs hr with ⟨hc, _, _⟩ | hr | hr
    · rw [hc]; exact Ne.symm h1
    · rw [(mem_regionalRecs hr).1]; exact Ne.symm h2
    · rw [(mem_currencyRecs hr).1]; exact Ne.symm h3)

theorem laddering_filter_nil {today : JSDate} {assets : List FixedIncomeAsset}
    {c : RecCategory} (h : c ≠ RecCategory.laddering) :
    (ladderingRecs today assets).filter (fun r => r.category == c) = [] :=
  filter_cat_nil (fun r hr => by
    rw [(mem_ladderingRecs hr).1]; exact Ne.symm h)

theorem liquidity_filter_nil {P : JSPrims} {today : JSDate} {uc : String}
    {assets : List FixedIncomeAsset} {events : List LiquidityEvent}
    {c : RecCategory} (h : c ≠ RecCategory.liquidity) :
    (liquidityRecs P today uc assets events).filter
      (fun r => r.category == c) = [] :=
  filter_cat_nil (fun r hr => by
    rw [(mem_liquidityRecs hr).1]; exact Ne.symm h)

theorem yield_filter_nil {P : JSPrims} {today : JSDate} {ur : String}
    {assets : List FixedIncomeAsset} {c : RecCategory}
    (h : c ≠ RecCategory.yield) :
    (yieldRecs P today ur assets).filter (fun r => r.category == c) = [] :=
  filter_cat_nil (fun r hr => by
    rw [(mem_yieldRecs hr).1]; exact Ne.symm h)

/-- C2: for every non-empty input, the rollover-category recommendations
of the output are exactly one per soon-maturing asset (the (0, 90]-day
window), in input order — and none for any other asset; each one's title
names the asset and its rounded day count, its region tag is the asset's
region, and its description names the asset's market value and type. -/
theorem rollover_characterization (P : JSPrims) (today : JSDate) (u : User)
    (assets : List FixedIncomeAsset) (events : List LiquidityEvent)
    (hne : assets ≠ []) :
    (generateRecommendations P today (some u) assets events).filter
        (fun r => r.category == RecCategory.rollover)
      = (assets.filter (soonMaturing today)).map
          (mkRolloverRec P u.risk_tolerance (userRegionOf u) today events)
    ∧ ∀ a : FixedIncomeAsset,
        (mkRolloverRec P u.risk_tolerance (userRegionOf u) today events a).title
            = a.name ++ " matures in "
              ++ toString (roundedDaysToMaturity today a) ++ " days"
          ∧ (mkRolloverRec P u.risk_tolerance (userRegionOf u) today events a).region
            = some a.region
          ∧ (mkRolloverRec P u.risk_tolerance (userRegionOf u) today events a).description
            = "Your " ++ P.formatCurrency (getMarketValue a) a.currency ++ " "
              ++ a.type.str
              ++ " will mature soon. Consider these reinvestment options:" := by
  constructor
  · rw [generateRecommendations_eq P today u assets events hne]
    rw [List.filter_append, List.filter_append, List.filter_append,
      List.filter_append]
    rw [divers_filter_nil (by simp) (by simp) (by simp),
      laddering_filter_nil (by simp), liquidity_filter_nil (by simp),
      yield_filter_nil (by simp)]
    rw [filter_cat_self (fun r hr => by
      obtain ⟨a, _, _, rfl⟩ := mem_rolloverRecs hr
      rfl)]
    rw [rolloverRecs_eq_map]
    simp
  · intro a
    exact ⟨rfl, rfl, rfl⟩

/-- Witness for C2: on one concrete 45-day bond with no events, the
output's rollover list is exactly the one recommendation built from that
bond, with the stated title, region and description. -/
theorem rollover_characterization_witness :
    ([wBond] : List FixedIncomeAsset) ≠ []
    ∧ ((generateRecommendations trivPrims wToday (some wUser) [wBond] []).filter
          (fun r => r.category == RecCategory.rollover)
        = ([wBond].filter (soonMaturing wToday)).map
            (mkRolloverRec trivPrims wUser.risk_tolerance (userRegionOf wUser)
              wToday [])
      ∧ ∀ a : FixedIncomeAsset,
          (mkRolloverRec trivPrims wUser.risk_tolerance (userRegionOf wUser)
              wToday [] a).title
              = a.name ++ " matures in "
                ++ toString (roundedDaysToMaturity wToday a) ++ " days"
            ∧ (mkRolloverRec trivPrims wUser.risk_tolerance (userRegionOf wUser)
                wToday [] a).region = some a.region
            ∧ (mkRolloverRec trivPrims wUser.risk_tolerance (userRegionOf wUser)
                wToday [] a).description
              = "Your " ++ trivPrims.formatCurrency (getMarketValue a) a.currency
                ++ " " ++ a.type.str
                ++ " will mature soon. Consider these reinvestment options:") :=
  ⟨by simp,
   rollover_characterization trivPrims wToday wUser [wBond] [] (by simp)⟩

/-- C3: when the summed same-currency liquidity needs N of the next 6
months are positive and the asset's market value M covers them, the
rollover recommendation's action items are exactly a keep-liquid item for
N followed — exactly when M > N — by a reinvest item for M − N, with no
replacement-instrument suggestion. -/
theorem rollover_coveredNeeds_items (P : JSPrims) (riskTol : RiskTolerance)
    (userRegion : String) (today : JSDate) (events : List LiquidityEvent)
    (a : FixedIncomeAsset)
    (hN : 0 < liquidityNeedsFor today events a)
    (hM : liquidityNeedsFor today events a ≤ getMarketValue a) :
    (mkRolloverRec P riskTol userRegion today events a).actionItems
      = ("Keep " ++ P.formatCurrency (liquidityNeedsFor today events a) a.currency
          ++ " liquid for upcoming expenses")
        :: (if liquidityNeedsFor today events a < getMarketValue a then
            ["Reinvest "
                ++ P.formatCurrency
                  (getMarketValue a - liquidityNeedsFor today events a) a.currency
                ++ " in a new fixed income asset"]
          else []) := by
  show rolloverOptions P riskTol userRegion today events a = _
  simp only [rolloverOptions]
  rw [if_pos ⟨hN, hM⟩]
  simp [gt_iff_lt]

/-- Witness for C3, the section-8 scenario: market value 9800, need 5000;
the items are keep-liquid 5000 and reinvest 4800. -/
theorem rollover_coveredNeeds_items_witness :
    liquidityNeedsFor wToday [wEvent] wBond = 5000
    ∧ getMarketValue wBond = 9800
    ∧ (mkRolloverRec numPrims .conservative "eurozone" wToday [wEvent]
          wBond).actionItems
      = ["Keep 5000 liquid for upcoming expenses",
         "Reinvest 4800 in a new fixed income asset"] := by
  have h1 : liquidityNeedsFor wToday [wEvent] wBond - 5000 = 0 := by
    with_unfolding_all decide
  have h2 : getMarketValue wBond - 9800 = 0 := by
    with_unfolding_all decide
  refine ⟨sub_eq_zero.mp h1, sub_eq_zero.mp h2, ?_⟩
  rw [rollover_coveredNeeds_items numPrims .conservative "eurozone" wToday
    [wEvent] wBond (by with_unfolding_all decide) (by with_unfolding_all decide)]
  with_unfolding_all decide

theorem rolloverOptions_ne_nil (P : JSPrims) (riskTol : RiskTolerance)
    (userRegion : String) (today : JSDate) (events : List LiquidityEvent)
    (a : FixedIncomeAsset) :
    rolloverOptions P riskTol userRegion today events a ≠ [] := by
  simp only [rolloverOptions]
  split
  · simp
  · cases riskTol <;> simp

theorem regionalSuggestionsFor_ne_nil (P : JSPrims) (n : String) (q : ℚ) :
    regionalSuggestionsFor P n q ≠ [] := by
  simp [regionalSuggestionsFor]

theorem currencySuggestionsFor_ne_nil (P : JSPrims) (n : String) (q : ℚ) :
    currencySuggestionsFor P n q ≠ [] := by
  simp [currencySuggestionsFor]

theorem liquidityActionsOf_ne_nil (P : JSPrims) (uc : String) (w : LiqAcc)
    (cands : List (FixedIncomeAsset × ℚ)) :
    liquidityActionsOf P uc w cands ≠ [] := by
  simp only [liquidityActionsOf]
  intro h
  simp only [List.append_eq_nil] at h
  obtain ⟨⟨⟨_, _⟩, hC⟩, _⟩ := h
  revert hC
  split <;> simp

/-- C10: every recommendation emitted by `generateRecommendations` has a
nonempty list of action items: each of the five analyses appends a
recommendation only with at least one collected action-item string. -/
theorem every_rec_has_actions (P : JSPrims) (today : JSDate)
    (user : Option User) (assets : List FixedIncomeAsset)
    (events : List LiquidityEvent) :
    ∀ r ∈ generateRecommendations P today user assets events,
      r.actionItems ≠ [] := by
  intro r hr
  match user with
  | none => simp [generateRecommendations] at hr
  | some u =>
    by_cases hne : assets = []
    · simp [generateRecommendations, hne] at hr
    · rw [generateRecommendations_eq P today u assets events hne] at hr
      rcases List.mem_append.mp hr with hr | h5
      · rcases List.mem_append.mp hr with hr | h4
        · rcases List.mem_append.mp hr with hr | h3
          · rcases List.mem_append.mp hr with h1 | h2
            · obtain ⟨a, _, _, rfl⟩ := mem_rolloverRecs h1
              exact rolloverOptions_ne_nil P u.risk_tolerance (userRegionOf u)
                today events a
            · rcases mem_diversificationRecs h2 with ⟨_, hni, hit⟩ | hreg | hcur
              · rw [hit]; exact hni
              · obtain ⟨_, n, q, hit⟩ := mem_regionalRecs hreg
                rw [hit]; exact regionalSuggestionsFor_ne_nil P n q
              · obtain ⟨_, n, q, hit⟩ := mem_currencyRecs hcur
                rw [hit]; exact currencySuggestionsFor_ne_nil P n q
          · obtain ⟨_, hs, hit⟩ := mem_ladderingRecs h3
            rw [hit]; exact hs
        · rcases mem_liquidityRecs h4 with ⟨_, hit | ⟨hd, s2, s3, hit⟩⟩
          · rw [hit]; exact liquidityActionsOf_ne_nil _ _ _ _
          · rw [hit]; simp
      · exact (mem_yieldRecs h5).2

/-- Witness for C10: the rollover recommendation emitted for the concrete
45-day bond has nonempty action items. -/
theorem every_rec_has_actions_witness :
    (mkRolloverRec trivPrims .conservative "eurozone" wToday []
        wBond).actionItems ≠ [] :=
  every_rec_has_actions trivPrims wToday (some wUser) [wBond] [] _
    (by with_unfolding_all decide)

/-- Three perpetual bonds (no non-perpetual assets). -/
def wPerpAssets : List FixedIncomeAsset := [wPerp "p1", wPerp "p2", wPerp "p3"]

/-- Counterexample to C6: an input with three perpetual bonds — zero
non-perpetual assets, fewer than the claimed threshold of 3 — still emits
a `laddering` recommendation, because the gate counts all assets and the
missing-years branch fires on the empty maturity buckets. -/
theorem laddering_gate_counterexample :
    (wPerpAssets.filter (fun a => a.type ≠ AssetType.perpetualBond)).length = 0
    ∧ (generateRecommendations trivPrims wToday (some wUser) wPerpAssets
          []).filter (fun r => r.category == RecCategory.laddering) ≠ [] := by
  constructor
  · decide
  · with_unfolding_all decide

/-- C6 as amended: the bond-laddering analysis is gated on at least 3
assets of any type (perpetual bonds count toward the threshold though they
are excluded from the maturity buckets); for every input with fewer than 3
assets, no laddering recommendation is emitted. -/
theorem laddering_gate (P : JSPrims) (today : JSDate) (user : Option User)
    (assets : List FixedIncomeAsset) (events : List LiquidityEvent)
    (h : assets.length < 3) :
    (generateRecommendations P today user assets events).filter
      (fun r => r.category == RecCategory.laddering) = [] := by
  match user with
  | none => simp [generateRecommendations]
  | some u =>
    by_cases hne : assets = []
    · simp [generateRecommendations, hne]
    · rw [generateRecommendations_eq P today u assets events hne]
      rw [List.filter_append, List.filter_append, List.filter_append,
        List.filter_append]
      rw [rollover_filter_nil (by simp),
        divers_filter_nil (by simp) (by simp) (by simp),
        liquidity_filter_nil (by simp), yield_filter_nil (by simp)]
      have hl : ladderingRecs today assets = [] := by
        unfold ladderingRecs
        rw [if_neg (by omega)]
      rw [hl]
      simp

/-- Witness for the amended C6 at a concrete 2-asset input. -/
theorem laddering_gate_witness :
    ([wBond, wBondFar] : List FixedIncomeAsset).length < 3
    ∧ (generateRecommendations trivPrims wToday (some wUser) [wBond, wBondFar]
          []).filter (fun r => r.category == RecCategory.laddering) = [] :=
  ⟨by decide,
   laddering_gate trivPrims wToday (some wUser) [wBond, wBondFar] []
     (by decide)⟩

theorem groupSum_eq_total (assets : List FixedIncomeAsset) (g : AssetGroup)
    (hg : ∀ a ∈ assets, groupOf a.type = g) :
    groupSum assets g = getTotalMarketValue assets := by
  unfold groupSum getTotalMarketValue
  rw [foldl_add_if_eq, foldl_add_eq]
  congr 1
  rw [List.filter_eq_self.mpr]
  intro a ha
  simp [hg a ha]

theorem typePct_single (assets : List FixedIncomeAsset) (g : AssetGroup)
    (hg : ∀ a ∈ assets, groupOf a.type = g) (hne : assets ≠ [])
    (hWF : WFAssets assets) : typePct assets g = 100 := by
  unfold typePct
  rw [groupSum_eq_total assets g hg,
    div_self (ne_of_gt (getTotalMarketValue_pos assets hne hWF))]
  norm_num

theorem imbalanceFor_ne_nil_of_100 (P : JSPrims) (risk : RiskTolerance)
    (assets : List FixedIncomeAsset) (g : AssetGroup)
    (hpct : typePct assets g = 100) :
    imbalanceFor P risk assets g ≠ [] := by
  cases risk <;> cases g <;>
    simp [imbalanceFor, idealDistribution, hpct] <;> norm_num

theorem foldr_append_ne_nil {α β : Type} (f : α → List β) (l : List α)
    (g : α) (hg : g ∈ l) (hne : f g ≠ []) :
    l.foldr (fun x acc => f x ++ acc) [] ≠ [] := by
  induction l with
  | nil => simp at hg
  | cons a t ih =>
    simp only [List.foldr_cons]
    intro h
    rw [List.append_eq_nil] at h
    rcases List.mem_cons.mp hg with rfl | hmem
    · exact hne h.1
    · exact ih hmem h.2

theorem imbalances_ne_nil (P : JSPrims) (risk : RiskTolerance)
    (assets : List FixedIncomeAsset) (g : AssetGroup)
    (h : imbalanceFor P risk assets g ≠ []) :
    imbalances P risk assets ≠ [] := by
  unfold imbalances
  exact foldr_append_ne_nil _ groupOrder g (by cases g <;> simp [groupOrder]) h

/-- C7: for every portfolio of at least 2 assets whose types all fall in a
single asset group, and every risk-tolerance profile, at least one
allocation-imbalance suggestion is produced (no group's ideal range
reaches 100%), so exactly one `diversification` recommendation is
emitted. -/
theorem single_group_diversification (P : JSPrims) (today : JSDate)
    (u : User) (assets : List FixedIncomeAsset)
    (events : List LiquidityEvent) (g : AssetGroup)
    (h2 : 2 ≤ assets.length)
    (hg : ∀ a ∈ assets, groupOf a.type = g)
    (hWF : WFAssets assets) :
    imbalances P u.risk_tolerance assets ≠ []
    ∧ ((generateRecommendations P today (some u) assets events).filter
        (fun r => r.category == RecCategory.diversification)).length = 1 := by
  have hne : assets ≠ [] := by
    intro hnil
    subst hnil
    simp at h2
  have hpct : typePct assets g = 100 := typePct_single assets g hg hne hWF
  have himb : imbalances P u.risk_tolerance assets ≠ [] :=
    imbalances_ne_nil P u.risk_tolerance assets g
      (imbalanceFor_ne_nil_of_100 P u.risk_tolerance assets g hpct)
  refine ⟨himb, ?_⟩
  rw [generateRecommendations_eq P today u assets events hne]
  rw [List.filter_append, List.filter_append, List.filter_append,
    List.filter_append]
  rw [rollover_filter_nil (by simp), laddering_filter_nil (by simp),
    liquidity_filter_nil (by simp), yield_filter_nil (by simp)]
  have hreg : (regionalRecs P assets).filter
      (fun r => r.category == RecCategory.diversification) = [] :=
    filter_cat_nil (fun r hr => by rw [(mem_regionalRecs hr).1]; simp)
  have hcur : (currencyRecs P assets).filter
      (fun r => r.category == RecCategory.diversification) = [] :=
    filter_cat_nil (fun r hr => by rw [(mem_currencyRecs hr).1]; simp)
  unfold diversificationRecs
  rw [if_pos h2, List.filter_append, List.filter_append, hreg, hcur,
    if_pos himb]
  simp

/-- Witness for C7: two government bonds, conservative profile. -/
theorem single_group_diversification_witness :
    (∀ a ∈ ([wBond, wBondFar] : List FixedIncomeAsset),
      groupOf a.type = AssetGroup.government)
    ∧ WFAssets [wBond, wBondFar]
    ∧ (imbalances trivPrims wUser.risk_tolerance [wBond, wBondFar] ≠ []
      ∧ ((generateRecommendations trivPrims wToday (some wUser)
            [wBond, wBondFar] []).filter
          (fun r => r.category == RecCategory.diversification)).length = 1) :=
  ⟨by decide, by with_unfolding_all decide,
   single_group_diversification trivPrims wToday wUser [wBond, wBondFar] []
     .government (by decide) (by decide) (by with_unfolding_all decide)⟩

theorem checkAll_ok {α : Type} (f : α → Except String Unit) (l : List α)
    (h : ∀ a ∈ l, f a = Except.ok ()) : checkAll f l = Except.ok () := by
  induction l with
  | nil => rfl
  | cons a t ih =>
    have ha := h a (by simp)
    have ht := ih (fun x hx => h x (by simp [hx]))
    simp [checkAll, ha, ht]
    rfl

theorem candidatesOf_mem {uc : String} {assets : List FixedIncomeAsset}
    {criticals : List ℕ} {c : FixedIncomeAsset × ℚ}
    (h : c ∈ candidatesOf uc assets criticals) :
    c.1 ∈ assets ∧ c.2 = getMarketValue c.1 := by
  unfold candidatesOf at h
  split at h
  · unfold saleCandidates at h
    obtain ⟨a, ha, hfa⟩ := List.mem_filterMap.mp h
    split at hfa
    · obtain rfl := Option.some_injective _ hfa
      exact ⟨ha, rfl⟩
    · split at hfa
      · split at hfa
        · obtain rfl := Option.some_injective _ hfa
          exact ⟨ha, rfl⟩
        · exact absurd hfa (by simp)
      · exact absurd hfa (by simp)
  · exact absurd h (List.not_mem_nil c)

theorem yearsToMaturity_pos (today m : JSDate) :
    0 < yearsToMaturity today m :=
  lt_of_lt_of_le (by norm_num) (le_max_left _ _)

theorem calculateYTME_ok (P : JSPrims) (today : JSDate)
    (a : FixedIncomeAsset) (hfv : 0 < a.face_value)
    (hpp : 0 < a.purchase_price) :
    calculateYTME P today a = Except.ok (calculateYTM P today a) := by
  rcases hm : a.maturity_date with _ | m
  · simp [calculateYTME, calculateYTM, hm]
  · by_cases hperp : a.type = AssetType.perpetualBond
    · simp [calculateYTME, calculateYTM, hperp]
    · have hcond : ¬(a.type = AssetType.perpetualBond ∨ a.maturity_date = none) := by
        simp [hperp, hm]
      have hy : yearsToMaturity today m ≠ 0 := ne_of_gt (yearsToMaturity_pos today m)
      by_cases hir : a.interest_rate = 0
      · simp only [calculateYTME, hcond, hm, hir, divGuard, hy, ne_of_gt hpp]
        simp [divGuard, hy, ne_of_gt hpp, hperp]
        rfl
      · have havg : (a.face_value + a.purchase_price) / 2 ≠ 0 := by positivity
        simp only [calculateYTME, hcond, hm, hir, divGuard, hy, havg]
        simp [divGuard, hy, havg, hperp, hir]
        rfl

theorem diversificationRecsE_ok (P : JSPrims) (risk : RiskTolerance)
    (assets : List FixedIncomeAsset) (hWF : WFAssets assets) :
    diversificationRecsE P risk assets
      = Except.ok (diversificationRecs P risk assets) := by
  unfold diversificationRecsE
  by_cases h2 : assets.length ≥ 2
  · have hne : assets ≠ [] := by
      intro h
      subst h
      simp at h2
    have htot : getTotalMarketValue assets ≠ 0 :=
      ne_of_gt (getTotalMarketValue_pos assets hne hWF)
    simp [h2, divGuard, htot]
    rfl
  · simp [h2, diversificationRecs]

theorem liquidityRecsE_ok (P : JSPrims) (today : JSDate) (uc : String)
    (assets : List FixedIncomeAsset) (events : List LiquidityEvent)
    (hWF : WFAssets assets) :
    liquidityRecsE P today uc assets events
      = Except.ok (liquidityRecs P today uc assets events) := by
  unfold liquidityRecsE
  by_cases he : events = []
  · simp [he, liquidityRecs]
  · rw [if_neg he]
    have hchk : checkAll (fun c => divGuard c.1.face_value)
        (candidatesOf uc assets (liqWalk P today uc assets events).criticals)
        = Except.ok () := by
      apply checkAll_ok
      intro c hc
      have hmem := (candidatesOf_mem hc).1
      simp [divGuard, ne_of_gt (hWF c.1 hmem).1]
    dsimp only
    split
    · rw [hchk]
      rfl
    · rfl

theorem yieldRecsE_ok (P : JSPrims) (today : JSDate) (ur : String)
    (assets : List FixedIncomeAsset) (hWF : WFAssets assets) :
    yieldRecsE P today ur assets = Except.ok (yieldRecs P today ur assets) := by
  unfold yieldRecsE
  by_cases h3 : assets.length ≥ 3
  · have hne : assets ≠ [] := by
      intro h
      subst h
      simp at h3
    have htot : getTotalMarketValue assets ≠ 0 :=
      ne_of_gt (getTotalMarketValue_pos assets hne hWF)
    have hchk : checkAll (fun a => do
        let _ ← calculateYTME P today a
        Except.ok ()) assets = Except.ok () := by
      apply checkAll_ok
      intro a ha
      rw [calculateYTME_ok P today a (hWF a ha).1 (hWF a ha).2]
      rfl
    rw [if_pos h3, hchk]
    simp [divGuard, htot]
    rfl
  · simp [h3, yieldRecs]

/-- C9: under the data-model invariants (strictly positive face value and
purchase price) the engine performs no division by zero: the checked
variant `generateRecommendationsE`, which fails on any zero denominator
(the distribution percentages, the premium-to-face ratios, the weighted
average yield and the YTM denominators), succeeds and returns exactly the
plain result; and the shared weighted-average utility short-circuits to 0
on a zero total instead of dividing. -/
theorem engine_no_division_error (P : JSPrims) (today : JSDate)
    (user : Option User) (assets : List FixedIncomeAsset)
    (events : List LiquidityEvent) (hWF : WFAssets assets) :
    generateRecommendationsE P today user assets events
      = Except.ok (generateRecommendations P today user assets events)
    ∧ ∀ (l : List FixedIncomeAsset) (sel : FixedIncomeAsset → ℚ),
        getTotalMarketValue l = 0 → calculateWeightedAverage l sel = 0 := by
  constructor
  · match user with
    | none => simp [generateRecommendationsE, generateRecommendations]
    | some u =>
      by_cases hne : assets = []
      · simp [generateRecommendationsE, generateRecommendations, hne]
      · unfold generateRecommendationsE
        rw [generateRecommendations_eq P today u assets events hne]
        simp only [hne, if_neg]
        rw [diversificationRecsE_ok P u.risk_tolerance assets hWF,
          liquidityRecsE_ok P today (userCurrencyOf u) assets events hWF,
          yieldRecsE_ok P today (userRegionOf u) assets hWF]
        rfl
  · intro l sel h0
    unfold calculateWeightedAverage
    by_cases hl : l = []
    · simp [hl]
    · simp [hl, h0]

/-- Witness for C9 at a concrete invariant-satisfying input. -/
theorem engine_no_division_error_witness :
    WFAssets [wBond, wBondFar]
    ∧ generateRecommendationsE trivPrims wToday (some wUser) [wBond, wBondFar]
          [wEvent]
        = Except.ok (generateRecommendations trivPrims wToday (some wUser)
            [wBond, wBondFar] [wEvent]) :=
  ⟨by with_unfolding_all decide,
   (engine_no_division_error trivPrims wToday (some wUser) [wBond, wBondFar]
     [wEvent] (by with_unfolding_all decide)).1⟩

theorem liqStep_eq (P : JSPrims) (today : JSDate) (uc : String)
    (assets : List FixedIncomeAsset) (events : List LiquidityEvent)
    (s : LiqAcc) (mi : ℕ) :
    liqStep P today uc assets events s mi
      = { cum := s.cum + (matsIn today uc assets mi - needsIn today uc events mi)
          shortfalls := s.shortfalls
            ++ (if 0 < needsIn today uc events mi
                  ∧ matsIn today uc assets mi < needsIn today uc events mi then
                [shortfallStr P uc (needsIn today uc events mi)
                  (matsIn today uc assets mi) mi]
              else [])
          surpluses := s.surpluses
            ++ (if 0 < needsIn today uc events mi
                  ∧ ¬ matsIn today uc assets mi < needsIn today uc events mi
                  ∧ needsIn today uc events mi * (3/2) < matsIn today uc assets mi then
                [surplusStr P uc (needsIn today uc events mi)
                  (matsIn today uc assets mi) mi]
              else [])
          criticals := s.criticals
            ++ (if 0 < needsIn today uc events mi
                  ∧ matsIn today uc assets mi < needsIn today uc events mi
                  ∧ needsIn today uc events mi * (1/5)
                    < needsIn today uc events mi - matsIn today uc assets mi
                  ∧ s.cum + (matsIn today uc assets mi - needsIn today uc events mi) < 0 then
                [mi]
              else []) } := by
  unfold liqStep
  by_cases h1 : 0 < needsIn today uc events mi
  · by_cases h2 : matsIn today uc assets mi < needsIn today uc events mi
    · simp [h1, h2, and_assoc]
    · by_cases h3 : needsIn today uc events mi * (3/2) < matsIn today uc assets mi
      · simp [h1, h2, h3]
      · simp [h1, h2, h3]
  · simp [h1]

theorem liqWalk_prefix (P : JSPrims) (today : JSDate) (uc : String)
    (assets : List FixedIncomeAsset) (events : List LiquidityEvent) (n : ℕ) :
    (((List.range n).map (fun i => today.monthIndex + i)).foldl
        (liqStep P today uc assets events) ⟨0, [], [], []⟩)
      = { cum := ∑ j ∈ Finset.range n,
            (matsIn today uc assets (today.monthIndex + j)
              - needsIn today uc events (today.monthIndex + j))
          shortfalls := ((List.range n).filter (fun i =>
              decide (0 < needsIn today uc events (today.monthIndex + i)
                ∧ matsIn today uc assets (today.monthIndex + i)
                  < needsIn today uc events (today.monthIndex + i)))).map
            (fun i => shortfallStr P uc
              (needsIn today uc events (today.monthIndex + i))
              (matsIn today uc assets (today.monthIndex + i))
              (today.monthIndex + i))
          surpluses := ((List.range n).filter (fun i =>
              decide (0 < needsIn today uc events (today.monthIndex + i)
                ∧ ¬ matsIn today uc assets (today.monthIndex + i)
                  < needsIn today uc events (today.monthIndex + i)
                ∧ needsIn today uc events (today.monthIndex + i) * (3/2)
                  < matsIn today uc assets (today.monthIndex + i)))).map
            (fun i => surplusStr P uc
              (needsIn today uc events (today.monthIndex + i))
              (matsIn today uc assets (today.monthIndex + i))
              (today.monthIndex + i))
          criticals := ((List.range n).filter (fun i =>
              decide (0 < needsIn today uc events (today.monthIndex + i)
                ∧ matsIn today uc assets (today.monthIndex + i)
                  < needsIn today uc events (today.monthIndex + i)
                ∧ needsIn today uc events (today.monthIndex + i) * (1/5)
                  < needsIn today uc events (today.monthIndex + i)
                    - matsIn today uc assets (today.monthIndex + i)
                ∧ (∑ j ∈ Finset.range (i + 1),
                    (matsIn today uc assets (today.monthIndex + j)
                      - needsIn today uc events (today.monthIndex + j))) < 0))).map
            (fun i => today.monthIndex + i) } := by
  induction n with
  | zero => simp
  | succ n ih =>
    rw [List.range_succ, List.map_append, List.foldl_append, ih]
    simp only [List.map_cons, List.map_nil, List.foldl_cons, List.foldl_nil]
    rw [liqStep_eq]
    have hsum : (∑ j ∈ Finset.range n,
          (matsIn today uc assets (today.monthIndex + j)
            - needsIn today uc events (today.monthIndex + j)))
          + (matsIn today uc assets (today.monthIndex + n)
            - needsIn today uc events (today.monthIndex + n))
        = ∑ j ∈ Finset.range (n + 1),
            (matsIn today uc assets (today.monthIndex + j)
              - needsIn today uc events (today.monthIndex + j)) :=
      (Finset.sum_range_succ _ n).symm
    rw [List.filter_append, List.filter_append, List.filter_append,
      List.map_append, List.map_append, List.map_append]
    simp only [List.filter_cons, List.filter_nil, decide_eq_true_eq, hsum]
    rw [LiqAcc.mk.injEq]
    refine ⟨rfl, ?_, ?_, ?_⟩ <;> · congr 1; split <;> simp_all

/-- C4: over the 24-consecutive-month projection starting this month, a
shortfall string (for the amount `needs - maturities`) is recorded exactly
for the months with nonzero needs where maturities fall short, and a month
is flagged critical exactly when additionally the shortfall exceeds 20% of
that month's needs and the cumulative running net flow (summed over all
months up to and including it) is negative. -/
theorem liquidity_projection (P : JSPrims) (today : JSDate) (uc : String)
    (assets : List FixedIncomeAsset) (events : List LiquidityEvent)
    (_hev : events ≠ []) :
    (liqWalk P today uc assets events).shortfalls
      = ((List.range 24).filter (fun i =>
          decide (0 < needsIn today uc events (today.monthIndex + i)
            ∧ matsIn today uc assets (today.monthIndex + i)
              < needsIn today uc events (today.monthIndex + i)))).map
        (fun i => shortfallStr P uc
          (needsIn today uc events (today.monthIndex + i))
          (matsIn today uc assets (today.monthIndex + i))
          (today.monthIndex + i))
    ∧ (liqWalk P today uc assets events).criticals
      = ((List.range 24).filter (fun i =>
          decide (0 < needsIn today uc events (today.monthIndex + i)
            ∧ matsIn today uc assets (today.monthIndex + i)
              < needsIn today uc events (today.monthIndex + i)
            ∧ needsIn today uc events (today.monthIndex + i) * (1/5)
              < needsIn today uc events (today.monthIndex + i)
                - matsIn today uc assets (today.monthIndex + i)
            ∧ (∑ j ∈ Finset.range (i + 1),
                (matsIn today uc assets (today.monthIndex + j)
                  - needsIn today uc events (today.monthIndex + j))) < 0))).map
        (fun i => today.monthIndex + i) := by
  have h : liqWalk P today uc assets events = _ :=
    liqWalk_prefix P today uc assets events 24
  exact ⟨congrArg LiqAcc.shortfalls h, congrArg LiqAcc.criticals h⟩

/-- Witness for C4: a single 1000 EUR event next month with no
same-currency asset maturing that month records a shortfall of exactly
1000 for that month (and, the cumulative position being negative, flags it
critical). -/
theorem liquidity_projection_witness :
    ([wEventNextMonth] : List LiquidityEvent) ≠ []
    ∧ (liqWalk numPrims wToday "EUR" [wBond] [wEventNextMonth]).shortfalls
      = ["Feb 2026: 1000 shortfall"]
    ∧ (liqWalk numPrims wToday "EUR" [wBond] [wEventNextMonth]).criticals
      ≠ [] := by
  refine ⟨by simp, ?_, ?_⟩
  · rw [(liquidity_projection numPrims wToday "EUR" [wBond] [wEventNextMonth]
      (by simp)).1]
    with_unfolding_all decide
  · rw [(liquidity_projection numPrims wToday "EUR" [wBond] [wEventNextMonth]
      (by simp)).2]
    with_unfolding_all decide

theorem saleCandidates_mem_iff (uc : String) (assets : List FixedIncomeAsset)
    (ec : JSDate) (a : FixedIncomeAsset) (ha : a ∈ assets) :
    (a, getMarketValue a) ∈ saleCandidates uc assets ec
      ↔ (a.type = AssetType.perpetualBond
        ∨ (a.type ≠ AssetType.perpetualBond ∧ a.currency = uc
          ∧ ∃ m, a.maturity_date = some m ∧ ec.ms < m.ms)) := by
  unfold saleCandidates
  rw [List.mem_filterMap]
  constructor
  · rintro ⟨b, _, hfb⟩
    split at hfb
    · rename_i hbp
      obtain ⟨rfl, -⟩ := Prod.mk.injEq .. ▸ Option.some_injective _ hfb
      exact Or.inl hbp
    · rename_i hbp
      split at hfb
      · rename_i m hm
        split at hfb
        · rename_i hcond
          obtain ⟨rfl, -⟩ := Prod.mk.injEq .. ▸ Option.some_injective _ hfb
          exact Or.inr ⟨hbp, hcond.2, m, hm, hcond.1⟩
        · exact absurd hfb (by simp)
      · exact absurd hfb (by simp)
  · intro h
    refine ⟨a, ha, ?_⟩
    rcases h with hp | ⟨hnp, hcur, m, hm, hlt⟩
    · rw [if_pos hp]
    · rw [if_neg hnp, hm]
      simp [hlt, hcur]

theorem sortedCandidates_head_min (cs : List (FixedIncomeAsset × ℚ))
    (hne : cs ≠ []) :
    ∃ b, (sortedCandidates cs).head? = some b ∧ b ∈ cs
      ∧ ∀ c ∈ cs, premiumOf b ≤ premiumOf c := by
  have hsc : sortedCandidates cs
      = cs.mergeSort (fun x y => decide (premiumOf x ≤ premiumOf y)) := rfl
  have hperm : (sortedCandidates cs).Perm cs := by
    rw [hsc]
    exact List.mergeSort_perm cs _
  have hsorted : List.Pairwise
      (fun x y => decide (premiumOf x ≤ premiumOf y) = true)
      (sortedCandidates cs) := by
    rw [hsc]
    exact @List.sorted_mergeSort _
      (fun x y => decide (premiumOf x ≤ premiumOf y))
      (fun x y z hxy hyz => by
        simp only [decide_eq_true_eq] at hxy hyz ⊢
        exact le_trans hxy hyz)
      (fun x y => by
        simp only [Bool.or_eq_true, decide_eq_true_eq]
        exact le_total _ _)
      cs
  have hne2 : sortedCandidates cs ≠ [] := by
    intro h
    apply hne
    have hp2 := hperm
    rw [h] at hp2
    exact (hp2.symm).eq_nil
  obtain ⟨b, t, hbt⟩ := List.exists_cons_of_ne_nil hne2
  have hbmem : b ∈ cs := by
    apply hperm.subset
    rw [hbt]
    simp
  refine ⟨b, by rw [hbt]; rfl, hbmem, ?_⟩
  intro c hc
  have hc2 : c ∈ sortedCandidates cs := hperm.symm.subset hc
  rw [hbt] at hc2
  rcases List.mem_cons.mp hc2 with rfl | hct
  · exact le_refl _
  · have hp := List.pairwise_cons.mp (hbt ▸ hsorted)
    have := hp.1 c hct
    simpa using this

theorem totalSellable_pos (uc : String) (assets : List FixedIncomeAsset)
    (criticals : List ℕ) (hWF : WFAssets assets)
    (hne : candidatesOf uc assets criticals ≠ []) :
    0 < (candidatesOf uc assets criticals).foldl (fun s c => s + c.2) 0 := by
  have hpos : ∀ x ∈ candidatesOf uc assets criticals, 0 < x.2 := by
    intro x hx
    obtain ⟨hmem, heq⟩ := candidatesOf_mem hx
    rw [heq]
    exact getMarketValue_pos _ (hWF _ hmem).2
  obtain ⟨c, t, hct⟩ := List.exists_cons_of_ne_nil hne
  rw [foldl_add_eq, hct, List.map_cons, List.sum_cons]
  have hc := hpos c (by rw [hct]; simp)
  have ht : 0 ≤ (t.map (fun c => c.2)).sum := by
    apply List.sum_nonneg
    intro x hx
    obtain ⟨y, hy, rfl⟩ := List.mem_map.mp hx
    exact le_of_lt (hpos y (by rw [hct]; simp [hy]))
  linarith

theorem shortfalls_ne_nil_of_criticals (P : JSPrims) (today : JSDate)
    (uc : String) (assets : List FixedIncomeAsset)
    (events : List LiquidityEvent)
    (h : (liqWalk P today uc assets events).criticals ≠ []) :
    (liqWalk P today uc assets events).shortfalls ≠ [] := by
  have hw : liqWalk P today uc assets events = _ :=
    liqWalk_prefix P today uc assets events 24
  intro hs
  apply h
  have hsf := congrArg LiqAcc.shortfalls hw
  have hcr := congrArg LiqAcc.criticals hw
  rw [hsf] at hs
  rw [hcr]
  simp only [List.map_eq_nil_iff, List.filter_eq_nil_iff,
    decide_eq_true_eq] at hs ⊢
  intro i hi hcond
  exact hs i hi ⟨hcond.1, hcond.2.1⟩

/-- C5: when a critical-shortfall month exists, the early-sale candidate
set consists exactly of the perpetual bonds plus the non-perpetual
user-currency assets maturing strictly after the first instant of the
earliest critical month (each paired with its market value); and when it
is non-empty, the emitted liquidity recommendation contains a sale
suggestion for a candidate of minimal premium-to-face-value ratio, the
suggestion string naming its market value and percentage premium or
discount (`sellLine`). -/
theorem sale_candidates_characterization (P : JSPrims) (today : JSDate)
    (uc : String) (assets : List FixedIncomeAsset)
    (events : List LiquidityEvent) (hWF : WFAssets assets)
    (hev : events ≠ [])
    (hcrit : (liqWalk P today uc assets events).criticals ≠ [])
    (hcand : candidatesOf uc assets
      (liqWalk P today uc assets events).criticals ≠ []) :
    ∃ mi, (liqWalk P today uc assets events).criticals.head? = some mi
      ∧ (∀ c ∈ candidatesOf uc assets
            (liqWalk P today uc assets events).criticals,
          c.1 ∈ assets ∧ c.2 = getMarketValue c.1)
      ∧ (∀ a ∈ assets,
          ((a, getMarketValue a) ∈ candidatesOf uc assets
              (liqWalk P today uc assets events).criticals
            ↔ a.type = AssetType.perpetualBond
              ∨ (a.type ≠ AssetType.perpetualBond ∧ a.currency = uc
                ∧ ∃ m, a.maturity_date = some m
                  ∧ (firstOfMonth mi).ms < m.ms)))
      ∧ ∃ b ∈ candidatesOf uc assets
            (liqWalk P today uc assets events).criticals,
          (∀ c ∈ candidatesOf uc assets
              (liqWalk P today uc assets events).criticals,
            premiumOf b ≤ premiumOf c)
          ∧ ∃ rec ∈ liquidityRecs P today uc assets events,
              sellLine P uc b ∈ rec.actionItems := by
  obtain ⟨mi, tl, hmi⟩ := List.exists_cons_of_ne_nil hcrit
  have hhead : (liqWalk P today uc assets events).criticals.head? = some mi := by
    rw [hmi]
    rfl
  have hcands_eq : candidatesOf uc assets
      (liqWalk P today uc assets events).criticals
      = saleCandidates uc assets (firstOfMonth mi) := by
    unfold candidatesOf
    rw [hhead]
  refine ⟨mi, hhead, fun c hc => candidatesOf_mem hc, ?_, ?_⟩
  · intro a ha
    rw [hcands_eq]
    exact saleCandidates_mem_iff uc assets (firstOfMonth mi) a ha
  · obtain ⟨b, hbh, hbm, hbmin⟩ := sortedCandidates_head_min _ hcand
    refine ⟨b, hbm, hbmin, ?_⟩
    have hsne := shortfalls_ne_nil_of_criticals P today uc assets events hcrit
    have hlr : liquidityRecs P today uc assets events
        = [{ category := .liquidity
             title := "Liquidity Risk Management"
             description := "Your upcoming expenses require careful liquidity planning:"
             actionItems := liquidityActionsOf P uc
               (liqWalk P today uc assets events)
               (candidatesOf uc assets
                 (liqWalk P today uc assets events).criticals) }] := by
      unfold liquidityRecs
      rw [if_neg hev]
      dsimp only
      rw [if_pos hsne]
    refine ⟨_, by rw [hlr]; exact List.mem_singleton.mpr rfl, ?_⟩
    have htot := totalSellable_pos uc assets
      (liqWalk P today uc assets events).criticals hWF hcand
    show sellLine P uc b ∈ liquidityActionsOf P uc
      (liqWalk P today uc assets events)
      (candidatesOf uc assets (liqWalk P today uc assets events).criticals)
    unfold liquidityActionsOf
    dsimp only
    rw [if_pos htot, hbh]
    simp [List.mem_append, hcrit, hcand]

/-- Witness for C5: one perpetual bond (market value 900, face 1000) and a
1000 EUR event next month producing a critical shortfall; the candidate
set characterization and minimal-premium sale suggestion hold there. -/
theorem sale_candidates_characterization_witness :
    WFAssets [wPerp "p1"]
    ∧ ([wEventNextMonth] : List LiquidityEvent) ≠ []
    ∧ (liqWalk trivPrims wToday "EUR" [wPerp "p1"]
        [wEventNextMonth]).criticals ≠ []
    ∧ candidatesOf "EUR" [wPerp "p1"]
        (liqWalk trivPrims wToday "EUR" [wPerp "p1"]
          [wEventNextMonth]).criticals ≠ []
    ∧ (∃ mi, (liqWalk trivPrims wToday "EUR" [wPerp "p1"]
          [wEventNextMonth]).criticals.head? = some mi
        ∧ (∀ c ∈ candidatesOf "EUR" [wPerp "p1"]
              (liqWalk trivPrims wToday "EUR" [wPerp "p1"]
                [wEventNextMonth]).criticals,
            c.1 ∈ [wPerp "p1"] ∧ c.2 = getMarketValue c.1)
        ∧ (∀ a ∈ [wPerp "p1"],
            ((a, getMarketValue a) ∈ candidatesOf "EUR" [wPerp "p1"]
                (liqWalk trivPrims wToday "EUR" [wPerp "p1"]
                  [wEventNextMonth]).criticals
              ↔ a.type = AssetType.perpetualBond
                ∨ (a.type ≠ AssetType.perpetualBond ∧ a.currency = "EUR"
                  ∧ ∃ m, a.maturity_date = some m
                    ∧ (firstOfMonth mi).ms < m.ms)))
        ∧ ∃ b ∈ candidatesOf "EUR" [wPerp "p1"]
              (liqWalk trivPrims wToday "EUR" [wPerp "p1"]
                [wEventNextMonth]).criticals,
            (∀ c ∈ candidatesOf "EUR" [wPerp "p1"]
                (liqWalk trivPrims wToday "EUR" [wPerp "p1"]
                  [wEventNextMonth]).criticals,
              premiumOf b ≤ premiumOf c)
            ∧ ∃ rec ∈ liquidityRecs trivPrims wToday "EUR" [wPerp "p1"]
                  [wEventNextMonth],
                sellLine trivPrims "EUR" b ∈ rec.actionItems) :=
  ⟨by with_unfolding_all decide, by simp, by with_unfolding_all decide,
   by with_unfolding_all decide,
   sale_candidates_characterization trivPrims wToday "EUR" [wPerp "p1"]
     [wEventNextMonth] (by with_unfolding_all decide) (by simp)
     (by with_unfolding_all decide) (by with_unfolding_all decide)⟩
